import Mathlib

/-!
payment-service: the idempotent charge handler of `src/main.js`

A shallow embedding of the `POST /v1/payments/charge` handler together with the
parts of its environment that the handler's behaviour depends on:

* JavaScript values as produced by `JSON.parse` (plus `undefined`), with strings
  as sequences of UTF-16 code units,
* `JSON.stringify` / `JSON.parse` on those values,
* the two tables of `payment_schema` as lists of rows,
* the clock, the UUID source, the outcome of every store call, and the answer of
  the framework to a run that throws, as an explicit environment record.

Three parts of the platform are parameters of the environment rather than
definitions: the rounding of a decimal literal to a Number, `Number` on a string
or an array, and what the framework sends when the handler throws outside its
`try` blocks.
-/

namespace PaymentService

/-! ## JavaScript numbers -/

/-- A decimal digit. -/
abbrev Digit := Fin 10

/-- A JavaScript Number.  A finite non-zero Number is written the way
`Number::toString` describes it: decimal digits `d₁ … d_k` and an exponent `n`
with value `0.d₁…d_k × 10ⁿ` (ECMAScript's `s × 10^(n-k)`), the shortest decimal
that reads back as the same double.  Zero has no digits; its sign is kept, as
`-0` is a Number of its own.  Every double has such a form, and as 10000 is
itself a double, comparing the decimal with 10000 is comparing the double with
10000.  Digit strings that are not in shortest form are allowed and stand for
the same value. -/
inductive JNum where
  | nan
  | inf (neg : Bool)
  | fin (neg : Bool) (digits : List Digit) (n : Int)
  deriving DecidableEq, Repr

/-- Remove leading zero digits; each one removed lowers the exponent by one. -/
def stripLead : List Digit → Int → List Digit × Int
  | [], n => ([], n)
  | d :: ds, n => if d = 0 then stripLead ds (n - 1) else (d :: ds, n)

/-- Remove trailing zero digits; the value `0.d₁…d_k × 10ⁿ` is unchanged. -/
def stripTrail : List Digit → List Digit
  | [] => []
  | d :: ds =>
    match stripTrail ds with
    | [] => if d = 0 then [] else [d]
    | e :: r => d :: e :: r

/-- The digits and exponent with `k` as small as possible, as `Number::toString`
requires. -/
def canon (ds : List Digit) (n : Int) : List Digit × Int :=
  (stripTrail (stripLead ds n).1, (stripLead ds n).2)

/-- The value of a digit string read as a natural number. -/
def digitsVal (ds : List Digit) : Nat :=
  ds.foldl (fun acc d => 10 * acc + d.val) 0

/-- The comparison `x > k` of JavaScript for a natural number `k`
(`NaN > k` and `-Infinity > k` are false, `Infinity > k` is true; a finite
`x = digitsVal ds × 10^(n - |ds|)` is compared exactly). -/
def JNum.gtNat (x : JNum) (k : Nat) : Bool :=
  match x with
  | .nan => false
  | .inf neg => !neg
  | .fin neg ds n =>
    if neg then false
    else if (ds.length : Int) ≤ n then
      decide (k < digitsVal ds * 10 ^ (n - ds.length).toNat)
    else
      decide (k * 10 ^ ((ds.length : Int) - n).toNat < digitsVal ds)

/-- Decimal digits of a natural number, most significant first (worker). -/
def natDigitsAux : Nat → Nat → List Digit → List Digit
  | 0, _, acc => acc
  | fuel + 1, m, acc =>
    if m < 10 then Fin.ofNat m :: acc
    else natDigitsAux fuel (m / 10) (Fin.ofNat m :: acc)

/-- Decimal digits of a natural number, most significant first. -/
def natDigits (m : Nat) : List Digit := natDigitsAux (m + 1) m []

/-- The Number that is the integer `m` (the result of `Date.now()`). -/
def JNum.ofNat (m : Nat) : JNum :=
  .fin false (natDigits m) (natDigits m).length

/-! ## Text -/

/-- A JavaScript string: its UTF-16 code units. -/
abbrev Text := List Nat

/-- The code units of one character. -/
def utf16Char (c : Char) : Text :=
  if c.toNat < 65536 then [c.toNat]
  else [55296 + (c.toNat - 65536) / 1024, 56320 + (c.toNat - 65536) % 1024]

/-- The JavaScript string with the characters of `s`. -/
def utf16 (s : String) : Text := (s.data.map utf16Char).flatten

/-! ## Code units used by the JSON grammar -/

/-- Backspace. -/
def cBackspace : Nat := 8
/-- Tab. -/
def cTab : Nat := 9
/-- Line feed. -/
def cNewline : Nat := 10
/-- Form feed. -/
def cFormFeed : Nat := 12
/-- Carriage return. -/
def cReturn : Nat := 13
/-- Space. -/
def cSpace : Nat := 32
/-- Double quote. -/
def cQuote : Nat := 34
/-- Plus sign. -/
def cPlus : Nat := 43
/-- Comma. -/
def cComma : Nat := 44
/-- Minus sign. -/
def cMinus : Nat := 45
/-- Full stop. -/
def cDot : Nat := 46
/-- Solidus. -/
def cSlash : Nat := 47
/-- Digit zero. -/
def cZero : Nat := 48
/-- Colon. -/
def cColon : Nat := 58
/-- Letter `E`. -/
def cUpperE : Nat := 69
/-- Opening bracket. -/
def cLBracket : Nat := 91
/-- Backslash. -/
def cBackslash : Nat := 92
/-- Closing bracket. -/
def cRBracket : Nat := 93
/-- Letter `a`. -/
def cLowerA : Nat := 97
/-- Letter `b`. -/
def cLowerB : Nat := 98
/-- Letter `e`. -/
def cLowerE : Nat := 101
/-- Letter `f`. -/
def cLowerF : Nat := 102
/-- Letter `l`. -/
def cLowerL : Nat := 108
/-- Letter `n`. -/
def cLowerN : Nat := 110
/-- Letter `r`. -/
def cLowerR : Nat := 114
/-- Letter `s`. -/
def cLowerS : Nat := 115
/-- Letter `t`. -/
def cLowerT : Nat := 116
/-- Letter `u`. -/
def cLowerU : Nat := 117
/-- Opening brace. -/
def cLBrace : Nat := 123
/-- Closing brace. -/
def cRBrace : Nat := 125

/-- The text `null`. -/
def litNull : Text := [cLowerN, cLowerU, cLowerL, cLowerL]
/-- The text `true`. -/
def litTrue : Text := [cLowerT, cLowerR, cLowerU, cLowerE]
/-- The text `false`. -/
def litFalse : Text := [cLowerF, cLowerA, cLowerL, cLowerS, cLowerE]

/-- The code unit of a decimal digit. -/
def digitChar (d : Digit) : Nat := cZero + d.val

/-- The digit a code unit stands for, if it is one of `0`–`9`. -/
def charDigit (c : Nat) : Option Digit :=
  if 48 ≤ c ∧ c ≤ 57 then some (Fin.ofNat (c - 48)) else none

/-- Lower-case hexadecimal digit of a value below 16. -/
def hexChar (v : Nat) : Nat :=
  if v < 10 then 48 + v else 87 + v

/-- The value of a hexadecimal digit, either case. -/
def charHex (c : Nat) : Option Nat :=
  if 48 ≤ c ∧ c ≤ 57 then some (c - 48)
  else if 97 ≤ c ∧ c ≤ 102 then some (c - 87)
  else if 65 ≤ c ∧ c ≤ 70 then some (c - 55)
  else none

/-- A leading (high) surrogate. -/
def isHigh (c : Nat) : Bool := decide (55296 ≤ c ∧ c < 56320)

/-- A trailing (low) surrogate. -/
def isLow (c : Nat) : Bool := decide (56320 ≤ c ∧ c < 57344)

/-! ## `Number::toString` -/

/-- The decimal text of digits. -/
def digitChars (ds : List Digit) : Text := ds.map digitChar

/-- The text of `Number::toString` for a positive finite Number given by its
shortest digits `ds` (`k = ds.length`) and exponent `n`. -/
def showFinite (ds : List Digit) (n : Int) : Text :=
  if (ds.length : Int) ≤ n ∧ n ≤ 21 then
    digitChars ds ++ List.replicate (n - ds.length).toNat cZero
  else if 0 < n ∧ n ≤ 21 then
    digitChars (ds.take n.toNat) ++ cDot :: digitChars (ds.drop n.toNat)
  else if -6 < n ∧ n ≤ 0 then
    cZero :: cDot :: (List.replicate (-n).toNat cZero ++ digitChars ds)
  else
    match ds with
    | [] => []
    | d :: rest =>
      digitChar d ::
        ((if rest = [] then [] else cDot :: digitChars rest) ++
          cLowerE :: (if n - 1 < 0 then cMinus else cPlus) ::
            digitChars (natDigits (n - 1).natAbs))

/-- The text `JSON.stringify` writes for a Number: `null` for a Number that is
not finite, `0` for both zeros, `Number::toString` otherwise. -/
def renderNum : JNum → Text
  | .nan => litNull
  | .inf _ => litNull
  | .fin neg ds n =>
    match (canon ds n).1 with
    | [] => [cZero]
    | d :: r => (if neg then [cMinus] else []) ++ showFinite (d :: r) (canon ds n).2

/-! ## JavaScript values -/

/-- A JavaScript value that `JSON.parse` can produce, or `undefined`.  An object
is the list of its own properties in the order in which they are enumerated. -/
inductive JVal where
  | undefined
  | null
  | bool (b : Bool)
  | num (x : JNum)
  | str (s : Text)
  | arr (xs : List JVal)
  | obj (ps : List (Text × JVal))
  deriving Repr

/-! ## `JSON.stringify` -/

/-- The six code units of `UnicodeEscape`: a backslash, `u`, and four lower-case
hexadecimal digits. -/
def uEscape (c : Nat) : Text :=
  [cBackslash, cLowerU, hexChar (c / 4096 % 16), hexChar (c / 256 % 16), hexChar (c / 16 % 16),
    hexChar (c % 16)]

/-- The text of `QuoteJSONString` for a code unit that is not a surrogate. -/
def escapeUnit (c : Nat) : Text :=
  if c = cQuote then [cBackslash, cQuote]
  else if c = cBackslash then [cBackslash, cBackslash]
  else if c = cBackspace then [cBackslash, cLowerB]
  else if c = cFormFeed then [cBackslash, cLowerF]
  else if c = cNewline then [cBackslash, cLowerN]
  else if c = cReturn then [cBackslash, cLowerR]
  else if c = cTab then [cBackslash, cLowerT]
  else if c < 32 then uEscape c
  else [c]

/-- The escaped content of a string.  A high surrogate that a low surrogate
follows is written with it as they are; any other surrogate is written as a
`\u` escape.  `pend` is a high surrogate just read, waiting for what follows. -/
def escapeUnits : Option Nat → Text → Text
  | none, [] => []
  | some h, [] => uEscape h
  | none, c :: cs =>
    if isHigh c then escapeUnits (some c) cs
    else if isLow c then uEscape c ++ escapeUnits none cs
    else escapeUnit c ++ escapeUnits none cs
  | some h, c :: cs =>
    if isLow c then h :: c :: escapeUnits none cs
    else if isHigh c then uEscape h ++ escapeUnits (some c) cs
    else uEscape h ++ (escapeUnit c ++ escapeUnits none cs)

/-- The text of `QuoteJSONString`. -/
def quote (s : Text) : Text :=
  cQuote :: (escapeUnits none s ++ [cQuote])

mutual
/-- The text `JSON.stringify` writes for a value inside an array or an object
(there `undefined` is written `null`). -/
def render : JVal → Text
  | .undefined => litNull
  | .null => litNull
  | .bool true => litTrue
  | .bool false => litFalse
  | .num x => renderNum x
  | .str s => quote s
  | .arr xs => cLBracket :: (renderElems xs ++ [cRBracket])
  | .obj ps => cLBrace :: (renderProps ps ++ [cRBrace])
/-- The elements of an array, each followed by a comma but the last. -/
def renderElems : List JVal → Text
  | [] => []
  | x :: xs => render x ++ renderTail xs
/-- The elements after the first, each preceded by a comma. -/
def renderTail : List JVal → Text
  | [] => []
  | x :: xs => cComma :: (render x ++ renderTail xs)
/-- The properties of an object; a property whose value is `undefined` is
left out. -/
def renderProps : List (Text × JVal) → Text
  | [] => []
  | (k, v) :: ps =>
    match v with
    | .undefined => renderProps ps
    | _ => quote k ++ cColon :: (render v ++ renderPropsTail ps)
/-- The properties after the first one written, each preceded by a comma. -/
def renderPropsTail : List (Text × JVal) → Text
  | [] => []
  | (k, v) :: ps =>
    match v with
    | .undefined => renderPropsTail ps
    | _ => cComma :: (quote k ++ cColon :: (render v ++ renderPropsTail ps))
end

/-- The body `res.json(v)` sends: `JSON.stringify(v)`, and nothing for
`undefined`. -/
def stringify : JVal → Text
  | .undefined => []
  | v => render v

/-! ## `JSON.parse` -/

/-- JSON white space. -/
def isWs (c : Nat) : Bool :=
  c = cSpace || c = cTab || c = cNewline || c = cReturn

/-- Skip white space. -/
def skipWs : Text → Text
  | [] => []
  | c :: cs => if isWs c then skipWs cs else c :: cs

/-- Remove a fixed text, if the text starts with it. -/
def dropLit : Text → Text → Option Text
  | [], cs => some cs
  | _ :: _, [] => none
  | p :: ps, c :: cs => if p = c then dropLit ps cs else none

/-- The code unit a one-letter escape stands for. -/
def unescape (e : Nat) : Option Nat :=
  if e = cQuote then some cQuote
  else if e = cBackslash then some cBackslash
  else if e = cSlash then some cSlash
  else if e = cLowerB then some cBackspace
  else if e = cLowerF then some cFormFeed
  else if e = cLowerN then some cNewline
  else if e = cLowerR then some cReturn
  else if e = cLowerT then some cTab
  else none

/-- The value of four hexadecimal digits. -/
def hex4 (a b c d : Nat) : Option Nat :=
  match charHex a, charHex b, charHex c, charHex d with
  | some x, some y, some z, some w => some (((x * 16 + y) * 16 + z) * 16 + w)
  | _, _, _, _ => none

/-- Put a code unit in front of the content read by the rest of the parse. -/
def pushTo (c : Nat) (p : Option (Text × Text)) : Option (Text × Text) :=
  p.map (fun q => (c :: q.1, q.2))

/-- The content of a string literal after its opening quote, and the text after
its closing quote.  A `\u` escape stands for its code unit, surrogate or not. -/
def pString : Text → Option (Text × Text)
  | [] => none
  | c :: cs =>
    if c = cQuote then some ([], cs)
    else if c = cBackslash then
      match cs with
      | [] => none
      | e :: cs1 =>
        if e = cLowerU then
          match cs1 with
          | h1 :: h2 :: h3 :: h4 :: r =>
            match hex4 h1 h2 h3 h4 with
            | none => none
            | some v => pushTo v (pString r)
          | _ => none
        else
          match unescape e with
          | none => none
          | some ch => pushTo ch (pString cs1)
    else if c < 32 then none
    else pushTo c (pString cs)

/-- The longest run of decimal digits at the start of the text. -/
def takeDigits : Text → List Digit × Text
  | [] => ([], [])
  | c :: cs =>
    match charDigit c with
    | some d => (d :: (takeDigits cs).1, (takeDigits cs).2)
    | none => ([], c :: cs)

/-- An optional minus sign. -/
def pSign : Text → Bool × Text
  | [] => (false, [])
  | c :: cs => if c = cMinus then (true, cs) else (false, c :: cs)

/-- An optional fraction: a dot followed by at least one digit. -/
def pFrac : Text → Option (List Digit × Text)
  | [] => some ([], [])
  | c :: cs =>
    if c = cDot then
      (if (takeDigits cs).1 = [] then none else some (takeDigits cs))
    else some ([], c :: cs)

/-- The sign of an exponent. -/
def pExpSign : Text → Bool × Text
  | [] => (false, [])
  | c :: cs =>
    if c = cMinus then (true, cs) else if c = cPlus then (false, cs) else (false, c :: cs)

/-- An optional exponent part. -/
def pExp : Text → Option (Int × Text)
  | [] => some (0, [])
  | c :: cs =>
    if c = cLowerE ∨ c = cUpperE then
      (if (takeDigits (pExpSign cs).2).1 = [] then none
       else some
        (if (pExpSign cs).1 then -(digitsVal (takeDigits (pExpSign cs).2).1 : Int)
         else (digitsVal (takeDigits (pExpSign cs).2).1 : Int),
         (takeDigits (pExpSign cs).2).2))
    else some (0, c :: cs)

/-- The Number of a decimal literal with sign `neg`, digits `ds` and exponent
`n` (value `0.ds × 10ⁿ`).  A literal whose digits are all zero is the zero of
its sign.  For any other literal the Number is the double nearest to the exact
value, or an infinity: `round` is that rounding of the platform, from the exact
decimal in shortest form to the Number. -/
def readNumber (round : JNum → JNum) (neg : Bool) (ds : List Digit) (n : Int) : JNum :=
  match (canon ds n).1 with
  | [] => .fin neg [] 0
  | d :: r => round (.fin neg (d :: r) (canon ds n).2)

/-- A JSON number literal after its sign. -/
def pUnsigned (round : JNum → JNum) (neg : Bool) (cs : Text) : Option (JNum × Text) :=
  match takeDigits cs with
  | ([], _) => none
  | (d :: ip, cs2) =>
    if d = 0 ∧ ip ≠ [] then none
    else
      match pFrac cs2 with
      | none => none
      | some (fp, cs3) =>
        match pExp cs3 with
        | none => none
        | some (ex, cs4) =>
          some (readNumber round neg (d :: ip ++ fp) (((d :: ip).length : Int) + ex), cs4)

/-- A JSON number literal. -/
def pNumber (round : JNum → JNum) (cs : Text) : Option (JNum × Text) :=
  pUnsigned round (pSign cs).1 (pSign cs).2

/-- All code units are decimal digits: the digits, if so. -/
def allDigits : Text → Option (List Digit)
  | [] => some []
  | c :: cs =>
    match charDigit c, allDigits cs with
    | some d, some ds => some (d :: ds)
    | _, _ => none

/-- The array index a property key stands for: the key is the decimal text,
without a leading zero, of an integer below `2³² - 1`. -/
def indexOf (k : Text) : Option Nat :=
  match allDigits k with
  | none => none
  | some [] => none
  | some (d :: ds) =>
    if d = 0 ∧ ds ≠ [] then none
    else if digitsVal (d :: ds) < 4294967295 then some (digitsVal (d :: ds))
    else none

/-- Give the value `v` to the property `k` that the object has. -/
def replaceProp (k : Text) (v : JVal) : List (Text × JVal) → List (Text × JVal)
  | [] => []
  | p :: ps => if p.1 = k then (k, v) :: ps else p :: replaceProp k v ps

/-- Add a property whose key is the array index `i`: array indices come first,
in ascending order. -/
def insertIndex (i : Nat) (k : Text) (v : JVal) : List (Text × JVal) → List (Text × JVal)
  | [] => [(k, v)]
  | p :: ps =>
    match indexOf p.1 with
    | some j => if j < i then p :: insertIndex i k v ps else (k, v) :: p :: ps
    | none => (k, v) :: p :: ps

/-- `CreateDataProperty` on an object built by `JSON.parse`: a key the object
has keeps its place and takes the new value; a new array index goes among the
array indices; any other new key goes last. -/
def setProp (k : Text) (v : JVal) (ps : List (Text × JVal)) : List (Text × JVal) :=
  if ps.any (fun p => p.1 == k) then replaceProp k v ps
  else
    match indexOf k with
    | some i => insertIndex i k v ps
    | none => ps ++ [(k, v)]

/-- The object with the properties of the text, set one after another. -/
def buildObj (raw : List (Text × JVal)) : List (Text × JVal) :=
  raw.foldl (fun acc p => setProp p.1 p.2 acc) []

mutual
/-- A JSON value and the text after it; `fuel` bounds the nesting and the number
of elements. -/
def pValue (round : JNum → JNum) : Nat → Text → Option (JVal × Text)
  | 0, _ => none
  | fuel + 1, cs =>
    match skipWs cs with
    | [] => none
    | c :: r =>
      if c = cLowerN then (dropLit [cLowerU, cLowerL, cLowerL] r).map (fun t => (JVal.null, t))
      else if c = cLowerT then
        (dropLit [cLowerR, cLowerU, cLowerE] r).map (fun t => (JVal.bool true, t))
      else if c = cLowerF then
        (dropLit [cLowerA, cLowerL, cLowerS, cLowerE] r).map (fun t => (JVal.bool false, t))
      else if c = cQuote then (pString r).map (fun p => (JVal.str p.1, p.2))
      else if c = cLBracket then
        match skipWs r with
        | [] => none
        | c2 :: r2 =>
          if c2 = cRBracket then some (JVal.arr [], r2)
          else (pElems round fuel (c2 :: r2)).map (fun p => (JVal.arr p.1, p.2))
      else if c = cLBrace then
        match skipWs r with
        | [] => none
        | c2 :: r2 =>
          if c2 = cRBrace then some (JVal.obj [], r2)
          else (pProps round fuel (c2 :: r2)).map (fun p => (JVal.obj (buildObj p.1), p.2))
      else (pNumber round (c :: r)).map (fun p => (JVal.num p.1, p.2))
/-- The elements of an array up to and including the closing bracket. -/
def pElems (round : JNum → JNum) : Nat → Text → Option (List JVal × Text)
  | 0, _ => none
  | fuel + 1, cs =>
    match pValue round fuel cs with
    | none => none
    | some (v, r) =>
      match skipWs r with
      | [] => none
      | c :: r2 =>
        if c = cComma then (pElems round fuel r2).map (fun p => (v :: p.1, p.2))
        else if c = cRBracket then some ([v], r2)
        else none
/-- The properties of an object, in the order of the text, up to and including
the closing brace. -/
def pProps (round : JNum → JNum) : Nat → Text → Option (List (Text × JVal) × Text)
  | 0, _ => none
  | fuel + 1, cs =>
    match skipWs cs with
    | [] => none
    | q :: r0 =>
      if q = cQuote then
        match pString r0 with
        | none => none
        | some (k, r1) =>
          match skipWs r1 with
          | [] => none
          | col :: r2 =>
            if col = cColon then
              match pValue round fuel r2 with
              | none => none
              | some (v, r3) =>
                match skipWs r3 with
                | [] => none
                | c :: r4 =>
                  if c = cComma then
                    (pProps round fuel r4).map (fun p => ((k, v) :: p.1, p.2))
                  else if c = cRBrace then some ([(k, v)], r4)
                  else none
            else none
      else none
end

/-- The value of `JSON.parse(text)`; `none` when it throws a `SyntaxError`.
`round` is the platform's rounding of a decimal literal to a Number. -/
def parse (round : JNum → JNum) (text : Text) : Option JVal :=
  match pValue round (text.length + 1) text with
  | none => none
  | some (v, r) => if skipWs r = [] then some v else none

/-! ## The store -/

/-- A row of `payment_schema.payments`, with the seven values the handler passes
to its `INSERT` (`src/main.js` line 82). -/
structure PaymentRow where
  payment_id : Nat
  order_id : JVal
  amount : JVal
  method : JVal
  status : String
  reference : String
  created_at : String

/-- Modelled from the spec: the two tables of `payment_schema`, whose DDL is not
part of the source.  `payments` holds the inserted rows; `idempotency_keys` holds
pairs of `idempotency_key` and `response_snapshot`, the snapshot being kept as
the serialized text that was inserted. -/
structure Store where
  payments : List PaymentRow
  idempotency_keys : List (String × Text)

/-- The rows of `SELECT … FROM idempotency_keys WHERE idempotency_key = $1`. -/
def selectKey (st : Store) (key : String) : List (String × Text) :=
  st.idempotency_keys.filter (fun row => row.1 == key)

/-- Modelled from the spec: `idempotency_key` is unique in its table, so the
store rejects an `INSERT` of a key that is present. -/
def keyPresent (st : Store) (key : String) : Bool :=
  st.idempotency_keys.any (fun row => row.1 == key)

/-- The store with one more payment row. -/
def Store.addPayment (st : Store) (row : PaymentRow) : Store :=
  { st with payments := st.payments ++ [row] }

/-- The store with one more ledger row. -/
def Store.addKey (st : Store) (key : String) (snapshot : Text) : Store :=
  { st with idempotency_keys := st.idempotency_keys ++ [(key, snapshot)] }

/-! ## The environment of one request -/

/-- A response: the status and the body, the body being the JavaScript string
that is sent. -/
structure Response where
  status : Nat
  body : Text
  deriving DecidableEq, Repr

/-- What the handler reads from outside during one request: the clock, the UUID
source, the parts of the platform that are not modelled, what the store does
with each call, and what the framework does when the handler throws. -/
structure Env where
  /-- `Date.now()` -/
  now : Nat
  /-- `new Date().toISOString()` -/
  isoNow : String
  /-- `uuidv4()` -/
  uuid : String
  /-- `Number(v)` for a string or an array `v`; `none` when the conversion
  throws a `TypeError` -/
  coerce : JVal → Option JNum
  /-- the rounding of a decimal literal to a Number inside `JSON.parse` -/
  round : JNum → JNum
  /-- what the framework sends to the client when the handler throws outside
  its `try` blocks: nothing with Express 4, which leaves the rejected promise
  of an `async` handler alone, and the response of the error handler, a 500,
  with Express 5 -/
  onThrow : Option Response
  /-- the `SELECT` throws -/
  selectFails : Bool
  /-- a concurrent request with the same key commits this snapshot to the
  ledger after this request's `SELECT` and before its ledger `INSERT` -/
  rival : Option Text
  /-- the payments `INSERT` throws -/
  paymentInsertFails : Bool
  /-- the ledger `INSERT` throws for a reason other than the uniqueness of the
  key -/
  keyInsertFails : Bool

/-- A request as the handler reads it. -/
structure Request where
  /-- `req.header("Idempotency-Key")`; `none` is `undefined` -/
  idempotencyKey : Option String
  /-- `req.body`; `none` is `undefined` -/
  body : Option JVal

/-- How a run of the handler ends: it sends a response, or it throws outside its
`try` blocks. -/
inductive Outcome where
  | sent (r : Response)
  | threw
  deriving DecidableEq, Repr

/-- A statement passed to `runQuery`. -/
inductive Query where
  | selectKey (key : String)
  | insertPayment (row : PaymentRow)
  | insertKey (key : String) (snapshot : Text)

/-- A call of `runQuery` and whether it returned (`true`) or threw (`false`). -/
structure Call where
  query : Query
  ok : Bool

/-- The result of one run of the handler. -/
structure Result where
  outcome : Outcome
  store : Store
  calls : List Call

/-! ## The handler -/

/-- `res.status(code).json(v)`. -/
def resJson (code : Nat) (v : JVal) : Response :=
  { status := code, body := stringify v }

/-- The body `{ error: "Idempotency-Key header required" }`. -/
def keyRequired : JVal :=
  .obj [(utf16 "error", .str (utf16 "Idempotency-Key header required"))]

/-- The body `{ error: "payment persistence failed" }`. -/
def persistFailed : JVal :=
  .obj [(utf16 "error", .str (utf16 "payment persistence failed"))]

/-- The value of property `k` of an object; `undefined` when it has none. -/
def getProp (ps : List (Text × JVal)) (k : String) : JVal :=
  (ps.lookup (utf16 k)).getD .undefined

/-- The destructuring `const { order_id, amount, method } = req.body`; it throws
on `undefined` and `null`, and a value that is not an object has none of the
three properties. -/
def destructure : Option JVal → Option (JVal × JVal × JVal)
  | none => none
  | some .undefined => none
  | some .null => none
  | some (.obj ps) => some (getProp ps "order_id", getProp ps "amount", getProp ps "method")
  | some _ => some (.undefined, .undefined, .undefined)

/-- `Number(v)`.  For an object the conversion is `OrdinaryToPrimitive` with hint
number: the inherited `valueOf` returns the object itself, so `toString` decides.
An own property `toString` is never callable in a value read from JSON, and the
conversion throws a `TypeError`; without one, `Object.prototype.toString` gives
`[object Object]`, which is `NaN`. -/
def toNumber (env : Env) : JVal → Option JNum
  | .undefined => some .nan
  | .null => some (.fin false [] 0)
  | .bool false => some (.fin false [] 0)
  | .bool true => some (.fin false [1] 1)
  | .num x => some x
  | .str s => env.coerce (.str s)
  | .arr xs => env.coerce (.arr xs)
  | .obj ps => if ps.any (fun p => p.1 == utf16 "toString") then none else some .nan

/-- The rule `Number(amount) > 10000 ? "FAILED" : "SUCCESS"`, on the number. -/
def chargeStatus (x : JNum) : String :=
  if x.gtNat 10000 then "FAILED" else "SUCCESS"

/-- The object `resp` of the handler. -/
def buildResp (env : Env) (order_id amount method : JVal) (status : String) : JVal :=
  .obj [(utf16 "payment_id", .num (JNum.ofNat env.now)), (utf16 "order_id", order_id),
    (utf16 "amount", amount), (utf16 "method", method), (utf16 "status", .str (utf16 status)),
    (utf16 "reference", .str (utf16 env.uuid)), (utf16 "created_at", .str (utf16 env.isoNow))]

/-- The row of the payments `INSERT`. -/
def buildRow (env : Env) (order_id amount method : JVal) (status : String) : PaymentRow :=
  { payment_id := env.now, order_id := order_id, amount := amount, method := method,
    status := status, reference := env.uuid, created_at := env.isoNow }

/-- The response of the replay branch: the parsed snapshot, or the snapshot
itself when it does not parse. -/
def replay (env : Env) (snap : Text) : Response :=
  match parse env.round snap with
  | some v => resJson 200 v
  | none => resJson 200 (.str snap)

/-- The store after the concurrent request of `env.rival`, if any, has committed
its ledger row for `key`. -/
def afterRival (env : Env) (st : Store) (key : String) : Store :=
  match env.rival with
  | none => st
  | some snap => st.addKey key snap

/-- The persist block of the handler (`src/main.js` lines 79–93). -/
def persist (env : Env) (st : Store) (idemp : String) (sel : Call) (row : PaymentRow)
    (resp : JVal) : Result :=
  if env.paymentInsertFails then
    { outcome := .sent (resJson 500 persistFailed), store := st,
      calls := [sel, ⟨.insertPayment row, false⟩] }
  else if keyPresent (st.addPayment row) idemp || env.keyInsertFails then
    { outcome := .sent (resJson 500 persistFailed), store := st.addPayment row,
      calls := [sel, ⟨.insertPayment row, true⟩, ⟨.insertKey idemp (stringify resp), false⟩] }
  else
    { outcome := .sent (resJson 200 resp),
      store := (st.addPayment row).addKey idemp (stringify resp),
      calls := [sel, ⟨.insertPayment row, true⟩, ⟨.insertKey idemp (stringify resp), true⟩] }

/-- The handler of `POST /v1/payments/charge` (`src/main.js` lines 56–94). -/
def charge (env : Env) (req : Request) (st : Store) : Result :=
  match req.idempotencyKey with
  | none => { outcome := .sent (resJson 400 keyRequired), store := st, calls := [] }
  | some idemp =>
    if idemp = "" then
      { outcome := .sent (resJson 400 keyRequired), store := st, calls := [] }
    else if env.selectFails then
      { outcome := .threw, store := st, calls := [⟨.selectKey idemp, false⟩] }
    else
      match selectKey st idemp with
      | row :: _ =>
        { outcome := .sent (replay env row.2), store := st,
          calls := [⟨.selectKey idemp, true⟩] }
      | [] =>
        match destructure req.body with
        | none => { outcome := .threw, store := st, calls := [⟨.selectKey idemp, true⟩] }
        | some (order_id, amount, method) =>
          match toNumber env amount with
          | none => { outcome := .threw, store := st, calls := [⟨.selectKey idemp, true⟩] }
          | some x =>
            persist env (afterRival env st idemp) idemp ⟨.selectKey idemp, true⟩
              (buildRow env order_id amount method (chargeStatus x))
              (buildResp env order_id amount method (chargeStatus x))

/-- What the client receives for a run of the handler: the response the handler
sent, or what the framework sends for a run that threw. -/
def clientSees (env : Env) : Outcome → Option Response
  | .sent r => some r
  | .threw => env.onThrow

/-- Requests handled one after another, each with its own environment: the
responses the clients receive, in order. -/
def received : List (Env × Request) → Store → List Response
  | [], _ => []
  | (env, req) :: rest, st =>
    match clientSees env (charge env req st).outcome with
    | some r => r :: received rest (charge env req st).store
    | none => received rest (charge env req st).store

/-- Every run of the sequence that throws is left without a response; in
particular a sequence in which no run throws. -/
def Silent : List (Env × Request) → Store → Prop
  | [], _ => True
  | (env, req) :: rest, st =>
    ((charge env req st).outcome = .threw → env.onThrow = none) ∧
      Silent rest (charge env req st).store

/-- No store call fails and no concurrent request interferes. -/
def Env.quiet (env : Env) : Prop :=
  env.selectFails = false ∧ env.rival = none ∧ env.paymentInsertFails = false ∧
    env.keyInsertFails = false

/-! ## Definitions used by the statements and proofs

What the text written by `JSON.stringify` reads back as, the values that read
back as themselves, the fuel the parser needs, the comparison of a Number with a
natural number on values, and the sample data of the witnesses and
counterexamples. -/

/-- A text that does not go on with a digit. -/
def NoDigit (rest : Text) : Prop := ∀ c r, rest = c :: r → charDigit c = none

/-- A text that goes on, if at all, with a comma or a closing bracket or brace:
what follows a value inside the text `JSON.stringify` writes. -/
def Delim (rest : Text) : Prop :=
  ∀ c r, rest = c :: r → c = cComma ∨ c = cRBracket ∨ c = cRBrace

/-- The Number read back from the text `JSON.stringify` writes for it, when the
rounding leaves it as it is. -/
def normNum : JNum → JVal
  | .nan => .null
  | .inf _ => .null
  | .fin neg ds n =>
    match (canon ds n).1 with
    | [] => .num (.fin false [] 0)
    | d :: r => .num (.fin neg (d :: r) (canon ds n).2)

mutual
/-- The value read back from the text `JSON.stringify` writes for a value. -/
def norm : JVal → JVal
  | .undefined => .null
  | .null => .null
  | .bool b => .bool b
  | .num x => normNum x
  | .str s => .str s
  | .arr xs => .arr (normElems xs)
  | .obj ps => .obj (normProps ps)
/-- The elements read back. -/
def normElems : List JVal → List JVal
  | [] => []
  | x :: xs => norm x :: normElems xs
/-- The properties read back; those with value `undefined` were not written. -/
def normProps : List (Text × JVal) → List (Text × JVal)
  | [] => []
  | (k, v) :: ps =>
    match v with
    | .undefined => normProps ps
    | _ => (k, norm v) :: normProps ps
end

/-- The key `a` may come before the key `b` in an object: they differ, and if
`b` is an array index then `a` is a smaller one. -/
def keyBefore (a b : Text) : Bool :=
  a != b &&
    (match indexOf b with
     | none => true
     | some j =>
       match indexOf a with
       | some i => decide (i < j)
       | none => false)

/-- The keys are in the order in which an object enumerates its properties:
no key twice, array indices first and ascending. -/
def orderedKeys : List Text → Bool
  | [] => true
  | k :: ks => ks.all (keyBefore k) && orderedKeys ks

/-- A Number of the platform: a double, written in shortest form, so that the
rounding of the platform leaves it as it is. -/
def isNumber (round : JNum → JNum) : JNum → Bool
  | .nan => true
  | .inf _ => true
  | .fin neg ds n =>
    match (canon ds n).1 with
    | [] => true
    | d :: r =>
      decide (round (.fin neg (d :: r) (canon ds n).2) = .fin neg (d :: r) (canon ds n).2)

mutual
/-- A value of the platform: its numbers are Numbers of the platform and the
keys of its objects are in enumeration order.  Every value that `JSON.parse`
returns is one. -/
def isValue (round : JNum → JNum) : JVal → Bool
  | .num x => isNumber round x
  | .arr xs => isValues round xs
  | .obj ps => orderedKeys (ps.map (fun p => p.1)) && isProps round ps
  | _ => true
/-- Every element is a value of the platform. -/
def isValues (round : JNum → JNum) : List JVal → Bool
  | [] => true
  | x :: xs => isValue round x && isValues round xs
/-- Every property value is a value of the platform. -/
def isProps (round : JNum → JNum) : List (Text × JVal) → Bool
  | [] => true
  | (_, v) :: ps => isValue round v && isProps round ps
end

mutual
/-- Fuel that `pValue` needs to read the text of a value. -/
def need : JVal → Nat
  | .arr xs => needElems xs + 1
  | .obj ps => needProps ps + 1
  | _ => 1
/-- Fuel that `pElems` needs. -/
def needElems : List JVal → Nat
  | [] => 0
  | x :: xs => need x + needElems xs + 1
/-- Fuel that `pProps` needs. -/
def needProps : List (Text × JVal) → Nat
  | [] => 0
  | (_, v) :: ps =>
    match v with
    | .undefined => needProps ps
    | _ => need v + needProps ps + 1
end

/-- A code unit that starts the text of a value. -/
def ValueStart (c : Nat) : Prop :=
  c = cLowerN ∨ c = cLowerT ∨ c = cLowerF ∨ c = cQuote ∨ c = cLBracket ∨ c = cLBrace ∨
    c = cMinus ∨ ∃ e : Digit, c = digitChar e

/-- The comparison `x > k` read on the value of the Number: `Infinity` exceeds
every `k`, `NaN` and `-Infinity` exceed none, and a finite Number is compared by
its value `± digitsVal ds × 10^(n - k)` as a rational number. -/
def JNum.exceeds (x : JNum) (k : Nat) : Prop :=
  match x with
  | .nan => False
  | .inf neg => neg = false
  | .fin neg ds n =>
    (k : ℚ) < (if neg then -1 else 1) * (digitsVal ds : ℚ) * (10 : ℚ) ^ (n - (ds.length : Int))

/-- A Number that is negative or zero: `-Infinity`, or a finite Number whose value
is at most 0.  `NaN` is not one. -/
def JNum.nonPositive (x : JNum) : Prop :=
  match x with
  | .nan => False
  | .inf neg => neg = true
  | .fin neg ds n =>
    (if neg then -1 else 1) * (digitsVal ds : ℚ) * (10 : ℚ) ^ (n - (ds.length : Int)) ≤ 0

/-- Whether a statement is one of the two `INSERT`s. -/
def Query.isInsert : Query → Bool
  | .selectKey _ => false
  | .insertPayment _ => true
  | .insertKey _ _ => true

/-- Whether a statement is the `SELECT` on the ledger. -/
def Query.isSelect : Query → Bool
  | .selectKey _ => true
  | .insertPayment _ => false
  | .insertKey _ _ => false

/-! ### Sample data -/

/-- The store with no rows. -/
def emptyStore : Store := { payments := [], idempotency_keys := [] }

/-- An environment in which every store call succeeds and a run that throws is
left without a response.  The numbers of the sample data are doubles in shortest
form, which the rounding leaves as they are, and no amount of the sample data is
a string or an array, so `coerce` is never consulted. -/
def sampleEnv : Env :=
  { now := 1700000000000, isoNow := "2023-11-14T22:13:20.000Z",
    uuid := "3f2b8c1e-7a4d-4e1b-9c57-0d6a5e8f1b22", coerce := fun _ => some .nan,
    round := fun x => x, onThrow := none,
    selectFails := false, rival := none, paymentInsertFails := false,
    keyInsertFails := false }

/-- A later request: the clock has advanced and the UUID is new. -/
def laterEnv : Env :=
  { sampleEnv with now := 1700000000500, isoNow := "2023-11-14T22:13:20.500Z",
                   uuid := "c0a1d2e3-f4b5-4c6d-8e7f-1a2b3c4d5e6f" }

/-- A request in the same millisecond as `sampleEnv`: same clock, new UUID. -/
def sameClockEnv : Env :=
  { sampleEnv with uuid := "c0a1d2e3-f4b5-4c6d-8e7f-1a2b3c4d5e6f" }

/-- The store rejects the second payments `INSERT` (as it does when `payment_id` is a
unique column and the identifier repeats). -/
def sameClockRejectEnv : Env := { sameClockEnv with paymentInsertFails := true }

/-- The ledger `INSERT` throws. -/
def keyFailEnv : Env := { sampleEnv with keyInsertFails := true }

/-- The framework answers a run that throws with the 500 of its error handler, as
Express 5 does for the rejected promise of an `async` handler.  The body stands
for the error page, whose text depends on the configuration; the status is what
matters. -/
def errorPageEnv : Env :=
  { sampleEnv with onThrow := some { status := 500, body := utf16 "Internal Server Error" } }

/-- The Number 10000. -/
def tenThousand : JNum := .fin false [1] 5

/-- The Number 10000.01. -/
def tenThousandAndCent : JNum := .fin false [1, 0, 0, 0, 0, 0, 1] 5

/-- The Number 0. -/
def zero : JNum := .fin false [] 0

/-- The Number -5. -/
def minusFive : JNum := .fin true [5] 1

/-- A body `{ order_id: "o-1", amount, method: "card" }`. -/
def orderBody (amount : JVal) : JVal :=
  .obj [(utf16 "order_id", .str (utf16 "o-1")), (utf16 "amount", amount),
    (utf16 "method", .str (utf16 "card"))]

/-- A body without an amount. -/
def bodyNoAmount : JVal :=
  .obj [(utf16 "order_id", .str (utf16 "o-1")), (utf16 "method", .str (utf16 "card"))]

/-- The amount `{ valueOf: 0, toString: 0 }`, on which `Number` throws. -/
def opaqueAmount : JVal :=
  .obj [(utf16 "valueOf", .num zero), (utf16 "toString", .num zero)]

/-- A request with a key and a body. -/
def mkRequest (key : String) (body : JVal) : Request :=
  { idempotencyKey := some key, body := some body }

/-- Two submissions with one key and different bodies. -/
def sampleSteps : List (Env × Request) :=
  [(sampleEnv, mkRequest "key-1" (orderBody (.num tenThousandAndCent))),
   (laterEnv, mkRequest "key-1" (orderBody (.num zero)))]

/-- Three submissions with one key: on the first `Number(amount)` throws, and
the framework leaves it without a response. -/
def silentSteps : List (Env × Request) :=
  (sampleEnv, mkRequest "key-1" (orderBody opaqueAmount)) :: sampleSteps

/-- Two submissions with one key: on the first `Number(amount)` throws, and the
framework answers with its error page. -/
def throwingSteps : List (Env × Request) :=
  [(errorPageEnv, mkRequest "key-1" (orderBody opaqueAmount)),
   (laterEnv, mkRequest "key-1" (orderBody (.num tenThousand)))]

/-- The snapshot a concurrent request stored for `key-1`. -/
def rivalSnapshot : Text :=
  stringify (buildResp laterEnv (.str (utf16 "o-1")) (.num tenThousand) (.str (utf16 "card"))
    "SUCCESS")

/-- A concurrent request commits its ledger row between this request's `SELECT`
and its ledger `INSERT`. -/
def rivalEnv : Env := { sampleEnv with rival := some rivalSnapshot }

/-- A store whose ledger holds a snapshot that is not JSON. -/
def corruptStore : Store :=
  { payments := [], idempotency_keys := [("key-1", utf16 "<html>not json</html>")] }

/-- A store whose ledger holds the snapshot `rivalSnapshot`. -/
def replayStore : Store :=
  { payments := [], idempotency_keys := [("key-1", rivalSnapshot)] }

/-- A snapshot in which the key `a` comes twice. -/
def repeatedKeySnapshot : Text := utf16 "\x7b\"a\":1,\"b\":2,\"a\":3\x7d"

/-- A store whose ledger holds `repeatedKeySnapshot`. -/
def repeatedKeyStore : Store :=
  { payments := [], idempotency_keys := [("key-1", repeatedKeySnapshot)] }

/-- A snapshot that is a string with the escape of a lone surrogate. -/
def surrogateSnapshot : Text :=
  [cQuote, cBackslash, cLowerU, 100, 56, 48, 48, cQuote]

/-- A store whose ledger holds `surrogateSnapshot`. -/
def surrogateStore : Store :=
  { payments := [], idempotency_keys := [("key-1", surrogateSnapshot)] }

/-- A platform on which the rounding takes `1e400`, which is beyond the doubles,
to `Infinity`. -/
def overflowEnv : Env :=
  { sampleEnv with round := fun x => if x = .fin false [1] 401 then .inf false else x }

/-- A store whose ledger holds the snapshot `1e400`. -/
def overflowStore : Store :=
  { payments := [], idempotency_keys := [("key-1", utf16 "1e400")] }

/-! ## Digits and characters -/

theorem charDigit_digitChar (d : Digit) : charDigit (digitChar d) = some d := by
  revert d; decide

theorem takeDigits_digitChars (ds : List Digit) (rest : Text) (h : NoDigit rest) :
    takeDigits (digitChars ds ++ rest) = (ds, rest) := by
  induction ds with
  | nil =>
    cases rest with
    | nil => rfl
    | cons c r => simp [digitChars, takeDigits, h c r rfl]
  | cons d ds ih =>
    have e : digitChars (d :: ds) ++ rest = digitChar d :: (digitChars ds ++ rest) := rfl
    rw [e, takeDigits]
    simp only [charDigit_digitChar, ih]

theorem digitsVal_append_single (ds : List Digit) (d : Digit) :
    digitsVal (ds ++ [d]) = 10 * digitsVal ds + d.val := by
  simp [digitsVal, List.foldl_append]

theorem natDigitsAux_eq (fuel : Nat) : ∀ (m : Nat) (acc : List Digit), m < fuel →
    ∃ pre : List Digit, pre ≠ [] ∧ natDigitsAux fuel m acc = pre ++ acc ∧ digitsVal pre = m := by
  induction fuel with
  | zero => intro m acc h; omega
  | succ fuel ih =>
    intro m acc h
    unfold natDigitsAux
    split
    · rename_i hm
      refine ⟨[Fin.ofNat m], by simp, by simp, ?_⟩
      simp [digitsVal, Fin.ofNat]
      omega
    · rename_i hm
      obtain ⟨pre, hne, heq, hv⟩ := ih (m / 10) (Fin.ofNat m :: acc) (by omega)
      refine ⟨pre ++ [Fin.ofNat m], by simp, by simp [heq], ?_⟩
      rw [digitsVal_append_single, hv]
      simp [Fin.ofNat]
      omega

theorem natDigits_ne_nil (m : Nat) : natDigits m ≠ [] := by
  obtain ⟨pre, hne, heq, _⟩ := natDigitsAux_eq (m + 1) m [] (by omega)
  simp [natDigits, heq, hne]

theorem digitsVal_natDigits (m : Nat) : digitsVal (natDigits m) = m := by
  obtain ⟨pre, _, heq, hv⟩ := natDigitsAux_eq (m + 1) m [] (by omega)
  simp [natDigits, heq, hv]

/-! ## Shortest digit strings -/

theorem stripLead_head (ds : List Digit) : ∀ n : Int,
    (stripLead ds n).1 = [] ∨ ∃ d r, (stripLead ds n).1 = d :: r ∧ d ≠ 0 := by
  induction ds with
  | nil => intro n; left; rfl
  | cons d ds ih =>
    intro n
    unfold stripLead
    split
    · exact ih (n - 1)
    · rename_i h; right; exact ⟨d, ds, rfl, h⟩

theorem stripLead_cons_ne (d : Digit) (r : List Digit) (n : Int) (h : d ≠ 0) :
    stripLead (d :: r) n = (d :: r, n) := by
  simp [stripLead, h]

theorem stripLead_zeros (z : Nat) (ds : List Digit) : ∀ n : Int,
    stripLead (List.replicate z (0 : Digit) ++ ds) n = stripLead ds (n - z) := by
  induction z with
  | zero => intro n; simp
  | succ z ih =>
    intro n
    rw [List.replicate_succ, List.cons_append, stripLead]
    simp only [if_true]
    rw [ih]
    congr 1
    push_cast
    ring

theorem stripTrail_cons_ne (d : Digit) (r : List Digit) (h : d ≠ 0) :
    ∃ t, stripTrail (d :: r) = d :: t := by
  unfold stripTrail
  split
  · exact ⟨[], by simp [h]⟩
  · rename_i e t _; exact ⟨e :: t, rfl⟩

theorem stripTrail_idem (ds : List Digit) : stripTrail (stripTrail ds) = stripTrail ds := by
  induction ds with
  | nil => rfl
  | cons d ds ih =>
    rw [stripTrail]
    split
    · split
      · rfl
      · rename_i h; simp [stripTrail, h]
    · rename_i e t he
      rw [he] at ih
      rw [stripTrail, ih]

theorem stripTrail_zeros (z : Nat) : stripTrail (List.replicate z (0 : Digit)) = [] := by
  induction z with
  | zero => rfl
  | succ z ih => rw [List.replicate_succ, stripTrail, ih]; simp

theorem stripTrail_append_zeros (ds : List Digit) (z : Nat) :
    stripTrail (ds ++ List.replicate z (0 : Digit)) = stripTrail ds := by
  induction ds with
  | nil => simp [stripTrail_zeros, stripTrail]
  | cons d ds ih => rw [List.cons_append, stripTrail, ih, stripTrail]

theorem canon_shortest (ds : List Digit) (n : Int) (d : Digit) (r : List Digit)
    (h : (canon ds n).1 = d :: r) : d ≠ 0 ∧ stripTrail (d :: r) = d :: r := by
  unfold canon at h
  simp only at h
  rcases stripLead_head ds n with h0 | ⟨e, t, he, hne⟩
  · rw [h0] at h; simp [stripTrail] at h
  · rw [he] at h
    obtain ⟨t2, ht2⟩ := stripTrail_cons_ne e t hne
    rw [ht2] at h
    have hd : e = d := (List.cons.inj h).1
    refine ⟨hd ▸ hne, ?_⟩
    rw [← h, ← ht2, stripTrail_idem]

theorem readNumber_eq (round : JNum → JNum) (neg : Bool) (ds ds1 : List Digit) (m n : Int)
    (d : Digit) (r : List Digit) (h1 : stripLead ds m = (ds1, n))
    (h2 : stripTrail ds1 = d :: r) :
    readNumber round neg ds m = round (JNum.fin neg (d :: r) n) := by
  simp [readNumber, canon, h1, h2]

theorem canon_of_shortest (d : Digit) (r : List Digit) (n : Int) (hd : d ≠ 0)
    (ht : stripTrail (d :: r) = d :: r) : canon (d :: r) n = (d :: r, n) := by
  simp [canon, stripLead_cons_ne d r n hd, ht]

theorem Delim.noDigit {rest : Text} (h : Delim rest) : NoDigit rest := by
  intro c r hc
  rcases h c r hc with h | h | h <;> subst h <;> decide

theorem Delim.pFrac {rest : Text} (h : Delim rest) : pFrac rest = some ([], rest) := by
  cases rest with
  | nil => rfl
  | cons c r =>
    have hc : c ≠ cDot := by
      rcases h c r rfl with h | h | h <;> subst h <;> decide
    simp [PaymentService.pFrac, hc]

theorem Delim.pExp {rest : Text} (h : Delim rest) : pExp rest = some (0, rest) := by
  cases rest with
  | nil => rfl
  | cons c r =>
    have hc : ¬ (c = cLowerE ∨ c = cUpperE) := by
      rcases h c r rfl with h | h | h <;> subst h <;> decide
    simp [PaymentService.pExp, hc]

theorem digitChars_append (a b : List Digit) :
    digitChars (a ++ b) = digitChars a ++ digitChars b := by
  simp [digitChars]

theorem digitChars_zeros (z : Nat) :
    digitChars (List.replicate z (0 : Digit)) = List.replicate z cZero := by
  unfold digitChars; rw [List.map_replicate]; rfl

theorem noDigit_cons (c : Nat) (t : Text) (h : charDigit c = none) : NoDigit (c :: t) := by
  intro c2 r e
  cases e
  exact h

/-- Plain integer form: digits followed by zeros. -/
theorem pUnsigned_int (round : JNum → JNum) (neg : Bool) (d : Digit) (r : List Digit) (z : Nat) (rest : Text)
    (hd : d ≠ 0) (ht : stripTrail (d :: r) = d :: r) (hrest : Delim rest) :
    pUnsigned round neg ((digitChars (d :: r) ++ List.replicate z cZero) ++ rest) =
      some (round (JNum.fin neg (d :: r) (((d :: r).length : Int) + z)), rest) := by
  rw [← digitChars_zeros, ← digitChars_append]
  unfold pUnsigned
  rw [takeDigits_digitChars _ _ hrest.noDigit]
  simp only [List.cons_append, hd, false_and, if_false, hrest.pFrac, hrest.pExp]
  congr 2
  apply readNumber_eq round neg _ (d :: (r ++ List.replicate z 0 ++ []))
  · rw [stripLead_cons_ne _ _ _ hd]
    simp
    omega
  · rw [List.append_nil, ← List.cons_append, stripTrail_append_zeros, ht]

/-- Form with a decimal point inside the digits. -/
theorem pUnsigned_point (round : JNum → JNum) (neg : Bool) (d : Digit) (r : List Digit) (m : Nat) (rest : Text)
    (hd : d ≠ 0) (ht : stripTrail (d :: r) = d :: r) (hm : 0 < m) (hk : m < (d :: r).length)
    (hrest : Delim rest) :
    pUnsigned round neg ((digitChars ((d :: r).take m) ++ cDot :: digitChars ((d :: r).drop m)) ++ rest) =
      some (round (JNum.fin neg (d :: r) m), rest) := by
  obtain ⟨m, rfl⟩ : ∃ j, m = j + 1 := ⟨m - 1, by omega⟩
  have hne : (d :: r).drop (m + 1) ≠ [] := by
    intro h
    have := congrArg List.length h
    simp at this
    simp at hk
    omega
  unfold pUnsigned
  rw [List.append_assoc, List.cons_append, takeDigits_digitChars _ _ (noDigit_cons _ _ (by decide))]
  simp only [List.take_succ_cons, hd, false_and, if_false, List.cons_append, PaymentService.pFrac,
    if_true]
  rw [takeDigits_digitChars _ _ hrest.noDigit]
  simp only [hne, if_false, hrest.pExp]
  congr 2
  apply readNumber_eq round neg _ (d :: r)
  · rw [← List.cons_append, ← List.take_succ_cons, List.take_append_drop,
      stripLead_cons_ne _ _ _ hd]
    simp only [List.length_cons, List.length_take, List.length_cons, Prod.mk.injEq, true_and]
    simp at hk
    have : min (m + 1) (r.length + 1) = m + 1 := by omega
    rw [this]; simp
  · exact ht

/-- Form `0.000ddd`. -/
theorem pUnsigned_small (round : JNum → JNum) (neg : Bool) (d : Digit) (r : List Digit) (z : Nat) (rest : Text)
    (hd : d ≠ 0) (ht : stripTrail (d :: r) = d :: r) (hrest : Delim rest) :
    pUnsigned round neg ((cZero :: cDot :: (List.replicate z cZero ++ digitChars (d :: r))) ++ rest) =
      some (round (JNum.fin neg (d :: r) (-(z : Int))), rest) := by
  have e1 : (cZero :: cDot :: (List.replicate z cZero ++ digitChars (d :: r))) ++ rest =
      digitChars [0] ++ cDot :: (digitChars (List.replicate z 0 ++ d :: r) ++ rest) := by
    rw [digitChars_append, digitChars_zeros]; rfl
  rw [e1]
  unfold pUnsigned
  rw [takeDigits_digitChars _ _ (noDigit_cons _ _ (by decide))]
  simp only [ne_eq, not_true_eq_false, and_false, if_false, PaymentService.pFrac, if_true]
  rw [takeDigits_digitChars _ _ hrest.noDigit]
  simp only [List.append_eq_nil, List.replicate_eq_nil_iff, reduceCtorEq, and_false, if_false,
    hrest.pExp]
  congr 2
  apply readNumber_eq round neg _ (d :: r)
  · rw [List.cons_append, stripLead]
    simp only [if_true]
    rw [List.nil_append, stripLead_zeros, stripLead_cons_ne _ _ _ hd]
    simp
  · exact ht

theorem pExpSign_sign (e : Int) (t : Text) :
    pExpSign ((if e < 0 then cMinus else cPlus) :: t) = (decide (e < 0), t) := by
  have hpm : cPlus ≠ cMinus := by decide
  by_cases h : e < 0 <;> simp [pExpSign, h, hpm]

/-- Exponent form `d.ddde±x`. -/
theorem pUnsigned_exp (round : JNum → JNum) (neg : Bool) (d : Digit) (r : List Digit) (e : Int) (rest : Text)
    (hd : d ≠ 0) (ht : stripTrail (d :: r) = d :: r) (hrest : Delim rest) :
    pUnsigned round neg ((digitChar d :: ((if r = [] then [] else cDot :: digitChars r) ++
        cLowerE :: (if e < 0 then cMinus else cPlus) :: digitChars (natDigits e.natAbs))) ++ rest) =
      some (round (JNum.fin neg (d :: r) (1 + e)), rest) := by
  have hexp : pExp ((cLowerE :: (if e < 0 then cMinus else cPlus) :: digitChars (natDigits e.natAbs)) ++ rest)
      = some (e, rest) := by
    simp only [List.cons_append, PaymentService.pExp, true_or, if_true, pExpSign_sign]
    rw [takeDigits_digitChars _ _ hrest.noDigit]
    simp only [natDigits_ne_nil, if_false, digitsVal_natDigits]
    by_cases h : e < 0
    · simp [h, abs_of_neg h]
    · simp [h, abs_of_nonneg (not_lt.mp h)]
  have hfrac : pFrac (((if r = [] then [] else cDot :: digitChars r) ++
        cLowerE :: (if e < 0 then cMinus else cPlus) :: digitChars (natDigits e.natAbs)) ++ rest) =
      some (r, (cLowerE :: (if e < 0 then cMinus else cPlus) :: digitChars (natDigits e.natAbs)) ++ rest) := by
    by_cases hr : r = []
    · subst hr
      have hed : cLowerE ≠ cDot := by decide
      simp [PaymentService.pFrac, hed]
    · simp only [hr, if_false, List.cons_append, PaymentService.pFrac, if_true, List.append_assoc]
      rw [takeDigits_digitChars _ _ (noDigit_cons _ _ (by decide))]
      simp [hr]
  have hnd : NoDigit (((if r = [] then [] else cDot :: digitChars r) ++
        cLowerE :: (if e < 0 then cMinus else cPlus) :: digitChars (natDigits e.natAbs)) ++ rest) := by
    by_cases hr : r = []
    · subst hr; exact noDigit_cons _ _ (by decide)
    · simp only [hr, if_false, List.cons_append]; exact noDigit_cons _ _ (by decide)
  have e1 : (digitChar d :: ((if r = [] then [] else cDot :: digitChars r) ++
        cLowerE :: (if e < 0 then cMinus else cPlus) :: digitChars (natDigits e.natAbs))) ++ rest =
      digitChars [d] ++ (((if r = [] then [] else cDot :: digitChars r) ++
        cLowerE :: (if e < 0 then cMinus else cPlus) :: digitChars (natDigits e.natAbs)) ++ rest) := rfl
  rw [e1]
  unfold pUnsigned
  rw [takeDigits_digitChars _ _ hnd]
  simp only [ne_eq, not_true_eq_false, and_false, if_false, hfrac, hexp]
  congr 2
  apply readNumber_eq round neg _ (d :: r)
  · rw [List.cons_append, List.nil_append, stripLead_cons_ne _ _ _ hd]
    simp
  · exact ht

/-- The text of `Number::toString` reads back as the Number. -/
theorem pUnsigned_showFinite (round : JNum → JNum) (neg : Bool) (d : Digit) (r : List Digit) (n : Int)
    (rest : Text) (hd : d ≠ 0) (ht : stripTrail (d :: r) = d :: r) (hrest : Delim rest) :
    pUnsigned round neg (showFinite (d :: r) n ++ rest) = some (round (JNum.fin neg (d :: r) n), rest) := by
  unfold showFinite
  split
  · rename_i h
    rw [pUnsigned_int round neg d r _ rest hd ht hrest]
    congr 4
    omega
  · split
    · rename_i h1 h2
      have hpos : 0 < n.toNat := by omega
      have hlt : n.toNat < (d :: r).length := by
        have : ¬ ((d :: r).length : Int) ≤ n := fun h => h1 ⟨h, h2.2⟩
        omega
      rw [pUnsigned_point round neg d r n.toNat rest hd ht hpos hlt hrest]
      congr 4
      omega
    · split
      · rename_i h1 h2 h3
        rw [pUnsigned_small round neg d r _ rest hd ht hrest]
        congr 4
        omega
      · rw [pUnsigned_exp round neg d r (n - 1) rest hd ht hrest]
        congr 4
        omega

theorem showFinite_head (d : Digit) (r : List Digit) (n : Int) :
    ∃ e t, showFinite (d :: r) n = digitChar e :: t := by
  unfold showFinite
  split
  · exact ⟨d, _, rfl⟩
  · split
    · rename_i h1 h2
      obtain ⟨m, hm⟩ : ∃ m, n.toNat = m + 1 := ⟨n.toNat - 1, by omega⟩
      rw [hm]
      exact ⟨d, _, rfl⟩
    · split
      · exact ⟨0, _, rfl⟩
      · exact ⟨d, _, rfl⟩

/-! ## Strings -/

theorem charHex_hexChar : ∀ v, v < 16 → charHex (hexChar v) = some v := by decide

theorem hex4_uEscape (c : Nat) (h : c < 65536) :
    hex4 (hexChar (c / 4096 % 16)) (hexChar (c / 256 % 16)) (hexChar (c / 16 % 16))
      (hexChar (c % 16)) = some c := by
  have a := charHex_hexChar (c / 4096 % 16) (by omega)
  have b := charHex_hexChar (c / 256 % 16) (by omega)
  have e := charHex_hexChar (c / 16 % 16) (by omega)
  have f := charHex_hexChar (c % 16) (by omega)
  simp only [hex4, a, b, e, f]
  congr 1
  omega

theorem pString_quote (rest : Text) : pString (cQuote :: rest) = some ([], rest) := by
  rw [pString.eq_def]; simp

theorem pString_short (e ch : Nat) (t : Text) (hu : e ≠ cLowerU)
    (hun : unescape e = some ch) :
    pString (cBackslash :: e :: t) = pushTo ch (pString t) := by
  rw [pString.eq_def]
  have h1 : cBackslash ≠ cQuote := by decide
  simp [h1, hu, hun]

theorem pString_plain (c : Nat) (t : Text) (h1 : c ≠ cQuote) (h2 : c ≠ cBackslash)
    (h3 : ¬ c < 32) :
    pString (c :: t) = pushTo c (pString t) := by
  rw [pString.eq_def]
  simp [h1, h2, h3]

theorem pString_uEscape (c : Nat) (t : Text) (h : c < 65536) :
    pString (uEscape c ++ t) = pushTo c (pString t) := by
  rw [pString.eq_def]
  have h1 : cBackslash ≠ cQuote := by decide
  simp only [uEscape, List.cons_append, List.nil_append, h1, if_false, if_true,
    hex4_uEscape c h]

theorem pString_escapeUnit (c : Nat) (t s rest : Text)
    (h : pString t = some (s, rest)) :
    pString (escapeUnit c ++ t) = some (c :: s, rest) := by
  unfold escapeUnit
  split
  · rename_i hc; subst hc
    rw [List.cons_append, List.cons_append, List.nil_append,
      pString_short _ cQuote _ (by decide) (by decide), h]; rfl
  split
  · rename_i hc; subst hc
    rw [List.cons_append, List.cons_append, List.nil_append,
      pString_short _ cBackslash _ (by decide) (by decide), h]; rfl
  split
  · rename_i hc; subst hc
    rw [List.cons_append, List.cons_append, List.nil_append,
      pString_short _ cBackspace _ (by decide) (by decide), h]; rfl
  split
  · rename_i hc; subst hc
    rw [List.cons_append, List.cons_append, List.nil_append,
      pString_short _ cFormFeed _ (by decide) (by decide), h]; rfl
  split
  · rename_i hc; subst hc
    rw [List.cons_append, List.cons_append, List.nil_append,
      pString_short _ cNewline _ (by decide) (by decide), h]; rfl
  split
  · rename_i hc; subst hc
    rw [List.cons_append, List.cons_append, List.nil_append,
      pString_short _ cReturn _ (by decide) (by decide), h]; rfl
  split
  · rename_i hc; subst hc
    rw [List.cons_append, List.cons_append, List.nil_append,
      pString_short _ cTab _ (by decide) (by decide), h]; rfl
  split
  · rename_i hc
    rw [pString_uEscape c t (by omega), h]; rfl
  · rename_i h1 h2 _ _ _ _ _ h3
    rw [List.cons_append, List.nil_append, pString_plain c t h1 h2 h3, h]; rfl

theorem isHigh_bounds {c : Nat} (h : isHigh c = true) : 55296 ≤ c ∧ c < 56320 := by
  simpa [isHigh] using h

theorem isLow_bounds {c : Nat} (h : isLow c = true) : 56320 ≤ c ∧ c < 57344 := by
  simpa [isLow] using h

theorem pString_surrogate (c : Nat) (t : Text) (h : 55296 ≤ c) :
    pString (c :: t) = pushTo c (pString t) := by
  apply pString_plain
  · unfold cQuote; omega
  · unfold cBackslash; omega
  · omega

/-- The text of `QuoteJSONString`, after its opening quote, reads back as the
string; a pending high surrogate comes first. -/
theorem pString_escapeUnits (s : Text) : ∀ (pend : Option Nat) (rest : Text),
    (∀ h, pend = some h → isHigh h = true) →
    pString (escapeUnits pend s ++ cQuote :: rest) = some (pend.toList ++ s, rest) := by
  induction s with
  | nil =>
    intro pend rest hp
    cases pend with
    | none => exact pString_quote rest
    | some h =>
      have hb := isHigh_bounds (hp h rfl)
      rw [escapeUnits, pString_uEscape h _ (by omega), pString_quote]; rfl
  | cons c cs ih =>
    intro pend rest hp
    cases pend with
    | none =>
      rw [escapeUnits]
      by_cases hh : isHigh c = true
      · simp only [hh, if_true]
        rw [ih (some c) rest (by intro h e; cases e; exact hh)]; rfl
      · by_cases hl : isLow c = true
        · have hb := isLow_bounds hl
          simp only [hh, hl, if_true, Bool.false_eq_true, if_false, List.append_assoc]
          rw [pString_uEscape c _ (by omega), ih none rest (by intro h e; cases e)]; rfl
        · simp only [hh, hl, Bool.false_eq_true, if_false, List.append_assoc]
          exact pString_escapeUnit c _ cs rest (ih none rest (by intro h e; cases e))
    | some h =>
      have hb := isHigh_bounds (hp h rfl)
      rw [escapeUnits]
      by_cases hl : isLow c = true
      · have hbl := isLow_bounds hl
        simp only [hl, if_true, List.cons_append]
        rw [pString_surrogate h _ (by omega), pString_surrogate c _ (by omega),
          ih none rest (by intro h e; cases e)]; rfl
      · by_cases hh : isHigh c = true
        · simp only [hl, hh, if_true, Bool.false_eq_true, if_false, List.append_assoc]
          rw [pString_uEscape h _ (by omega),
            ih (some c) rest (by intro h e; cases e; exact hh)]; rfl
        · simp only [hl, hh, Bool.false_eq_true, if_false, List.append_assoc]
          rw [pString_uEscape h _ (by omega),
            pString_escapeUnit c _ cs rest (ih none rest (by intro h e; cases e))]; rfl

theorem pString_quoted (s rest : Text) :
    pString (escapeUnits none s ++ cQuote :: rest) = some (s, rest) :=
  pString_escapeUnits s none rest (by intro h e; cases e)

/-! ## Objects -/

theorem orderedKeys_iff (ks : List Text) :
    orderedKeys ks = true ↔ ks.Pairwise (fun a b => keyBefore a b = true) := by
  induction ks with
  | nil => simp [orderedKeys]
  | cons k ks ih =>
    simp only [orderedKeys, Bool.and_eq_true, List.all_eq_true, List.pairwise_cons, ih]

theorem keyBefore_ne {a b : Text} (h : keyBefore a b = true) : a ≠ b := by
  unfold keyBefore at h
  simp only [Bool.and_eq_true, bne_iff_ne, ne_eq] at h
  exact h.1

theorem insertIndex_last (i : Nat) (k : Text) (v : JVal) (ps : List (Text × JVal))
    (h : ∀ p ∈ ps, ∃ j, indexOf p.1 = some j ∧ j < i) :
    insertIndex i k v ps = ps ++ [(k, v)] := by
  induction ps with
  | nil => rfl
  | cons p ps ih =>
    obtain ⟨j, hj, hlt⟩ := h p (List.mem_cons_self _ _)
    rw [insertIndex]
    simp only [hj, hlt, if_true, List.cons_append]
    rw [ih (fun q hq => h q (List.mem_cons_of_mem _ hq))]

/-- Setting a key that may come after every key of the object puts it last. -/
theorem setProp_last (k : Text) (v : JVal) (ps : List (Text × JVal))
    (h : ∀ p ∈ ps, keyBefore p.1 k = true) : setProp k v ps = ps ++ [(k, v)] := by
  have hany : ps.any (fun p => p.1 == k) = false := by
    rw [List.any_eq_false]
    intro p hp
    have := keyBefore_ne (h p hp)
    simpa using this
  unfold setProp
  simp only [hany, Bool.false_eq_true, if_false]
  cases hk : indexOf k with
  | none => rfl
  | some i =>
    simp only
    apply insertIndex_last
    intro p hp
    have hb := h p hp
    unfold keyBefore at hb
    simp only [hk, Bool.and_eq_true] at hb
    cases hp2 : indexOf p.1 with
    | none => simp [hp2] at hb
    | some j => exact ⟨j, rfl, by simpa [hp2] using hb.2⟩

theorem foldl_setProp (ps : List (Text × JVal)) : ∀ acc : List (Text × JVal),
    ((acc ++ ps).map (fun p => p.1)).Pairwise (fun a b => keyBefore a b = true) →
    ps.foldl (fun acc p => setProp p.1 p.2 acc) acc = acc ++ ps := by
  induction ps with
  | nil => intro acc _; simp
  | cons p ps ih =>
    intro acc h
    have hlast : setProp p.1 p.2 acc = acc ++ [p] := by
      apply setProp_last
      intro q hq
      rw [List.map_append, List.pairwise_append] at h
      exact h.2.2 q.1 (List.mem_map_of_mem _ hq) p.1 (by simp)
    rw [List.foldl_cons, hlast, ih (acc ++ [p]) (by simpa using h)]
    simp

/-- An object whose keys are in enumeration order is built as written. -/
theorem buildObj_ordered (ps : List (Text × JVal))
    (h : orderedKeys (ps.map (fun p => p.1)) = true) : buildObj ps = ps := by
  unfold buildObj
  rw [foldl_setProp ps [] (by simpa using (orderedKeys_iff _).mp h)]
  simp

theorem normProps_keys (ps : List (Text × JVal)) :
    ((normProps ps).map (fun p => p.1)).Sublist (ps.map (fun p => p.1)) := by
  induction ps with
  | nil => simp [normProps]
  | cons p ps ih =>
    obtain ⟨k, v⟩ := p
    cases v with
    | undefined => simpa only [normProps, List.map_cons] using ih.cons k
    | _ => simpa only [normProps, List.map_cons] using ih.cons₂ k

theorem orderedKeys_normProps (ps : List (Text × JVal))
    (h : orderedKeys (ps.map (fun p => p.1)) = true) :
    orderedKeys ((normProps ps).map (fun p => p.1)) = true :=
  (orderedKeys_iff _).mpr (((orderedKeys_iff _).mp h).sublist (normProps_keys ps))

/-! ## Numbers inside values -/

theorem ValueStart.notWs {c : Nat} (h : ValueStart c) : isWs c = false := by
  rcases h with h | h | h | h | h | h | h | ⟨e, h⟩ <;> subst h
  all_goals first | decide | (revert e; decide)

theorem ValueStart.ne_close {c : Nat} (h : ValueStart c) : c ≠ cRBracket ∧ c ≠ cRBrace := by
  rcases h with h | h | h | h | h | h | h | ⟨e, h⟩ <;> subst h
  all_goals first | decide | (revert e; decide)

theorem skipWs_cons {c : Nat} (t : Text) (h : isWs c = false) :
    skipWs (c :: t) = c :: t := by
  simp [skipWs, h]

/-! ### Numbers -/

theorem renderNum_fin_head (neg : Bool) (ds : List Digit) (n : Int) :
    ∃ c t, renderNum (.fin neg ds n) = c :: t ∧ (c = cMinus ∨ ∃ e : Digit, c = digitChar e) := by
  simp only [renderNum]
  split
  · exact ⟨cZero, [], rfl, Or.inr ⟨0, rfl⟩⟩
  · rename_i d r _
    obtain ⟨e, t, he⟩ := showFinite_head d r (canon ds n).2
    cases neg
    · exact ⟨digitChar e, t, by simp [he], Or.inr ⟨e, rfl⟩⟩
    · exact ⟨cMinus, digitChar e :: t, by simp [he], Or.inl rfl⟩

theorem pSign_digit (e : Digit) (t : Text) : pSign (digitChar e :: t) = (false, digitChar e :: t) := by
  have : digitChar e ≠ cMinus := by revert e; decide
  simp [pSign, this]

theorem isNumber_fin {round : JNum → JNum} {neg : Bool} {ds : List Digit} {n : Int}
    {d : Digit} {r : List Digit} (h : isNumber round (.fin neg ds n) = true)
    (hc : (canon ds n).1 = d :: r) :
    round (.fin neg (d :: r) (canon ds n).2) = .fin neg (d :: r) (canon ds n).2 := by
  simpa [isNumber, hc] using h

theorem pNumber_renderNum (round : JNum → JNum) (neg : Bool) (ds : List Digit) (n : Int)
    (rest : Text) (hnum : isNumber round (.fin neg ds n) = true) (hrest : Delim rest) :
    (pNumber round (renderNum (.fin neg ds n) ++ rest)).map (fun p => (JVal.num p.1, p.2)) =
      some (normNum (.fin neg ds n), rest) := by
  simp only [renderNum, normNum]
  split
  · rename_i h
    try simp only [h]
    have e1 : [cZero] ++ rest = digitChar 0 :: rest := rfl
    rw [e1, pNumber, pSign_digit]
    simp only
    rw [show digitChar 0 :: rest = digitChars [0] ++ rest from rfl, pUnsigned,
      takeDigits_digitChars _ _ hrest.noDigit]
    simp only [ne_eq, not_true_eq_false, and_false, if_false, hrest.pFrac, hrest.pExp]
    rfl
  · rename_i d r h
    try simp only [h]
    obtain ⟨hd, ht⟩ := canon_shortest ds n d r h
    obtain ⟨e, t, he⟩ := showFinite_head d r (canon ds n).2
    cases neg
    · simp only [Bool.false_eq_true, if_false, List.nil_append]
      rw [pNumber, he, List.cons_append, pSign_digit]
      simp only
      rw [← List.cons_append, ← he, pUnsigned_showFinite round false d r _ rest hd ht hrest,
        isNumber_fin hnum h]
      rfl
    · simp only [if_true, List.cons_append, List.nil_append]
      rw [pNumber]
      simp only [pSign, if_true]
      rw [pUnsigned_showFinite round true d r _ rest hd ht hrest, isNumber_fin hnum h]
      rfl

theorem renderNum_normNum (neg : Bool) (ds : List Digit) (n : Int) :
    render (normNum (.fin neg ds n)) = renderNum (.fin neg ds n) := by
  simp only [normNum]
  split
  · rename_i h
    simp only [render, renderNum, h]
    simp [canon, stripLead, stripTrail]
  · rename_i d r h
    obtain ⟨hd, ht⟩ := canon_shortest ds n d r h
    simp [render, renderNum, h, canon_of_shortest d r _ hd ht]

/-! ### Dispatch of `pValue` on the first character -/

theorem pValue_null (round : JNum → JNum) (f : Nat) (rest : Text) :
    pValue round (f + 1) (litNull ++ rest) = some (JVal.null, rest) := by
  rw [pValue]
  simp [skipWs, isWs, dropLit, litNull, litTrue, litFalse, cSpace, cTab, cNewline, cReturn, cLowerN, cLowerT, cLowerF, cLowerU, cLowerL, cLowerR, cLowerE, cLowerA, cLowerS]

theorem pValue_true (round : JNum → JNum) (f : Nat) (rest : Text) :
    pValue round (f + 1) (litTrue ++ rest) = some (JVal.bool true, rest) := by
  rw [pValue]
  simp [skipWs, isWs, dropLit, litNull, litTrue, litFalse, cSpace, cTab, cNewline, cReturn, cLowerN, cLowerT, cLowerF, cLowerU, cLowerL, cLowerR, cLowerE, cLowerA, cLowerS]

theorem pValue_false (round : JNum → JNum) (f : Nat) (rest : Text) :
    pValue round (f + 1) (litFalse ++ rest) = some (JVal.bool false, rest) := by
  rw [pValue]
  simp [skipWs, isWs, dropLit, litNull, litTrue, litFalse, cSpace, cTab, cNewline, cReturn, cLowerN, cLowerT, cLowerF, cLowerU, cLowerL, cLowerR, cLowerE, cLowerA, cLowerS]

theorem pValue_str (round : JNum → JNum) (f : Nat) (s rest : Text) :
    pValue round (f + 1) (quote s ++ rest) = some (JVal.str s, rest) := by
  rw [pValue, quote, List.cons_append, List.append_assoc, List.singleton_append,
    skipWs_cons _ (by decide)]
  have h1 : cQuote ≠ cLowerN := by decide
  have h2 : cQuote ≠ cLowerT := by decide
  have h3 : cQuote ≠ cLowerF := by decide
  simp only [h1, h2, h3, if_false, if_true, pString_quoted, Option.map_some']

theorem pValue_num (round : JNum → JNum) (f : Nat) (c : Nat) (t : Text)
    (h : c = cMinus ∨ ∃ e : Digit, c = digitChar e) :
    pValue round (f + 1) (c :: t) = (pNumber round (c :: t)).map (fun p => (JVal.num p.1, p.2)) := by
  have hall : isWs c = false ∧ c ≠ cLowerN ∧ c ≠ cLowerT ∧ c ≠ cLowerF ∧ c ≠ cQuote ∧ c ≠ cLBracket ∧
      c ≠ cLBrace := by
    rcases h with h | ⟨e, h⟩ <;> subst h
    · decide
    · revert e; decide
  obtain ⟨h0, h1, h2, h3, h4, h5, h6⟩ := hall
  rw [pValue, skipWs_cons _ h0]
  simp only [h1, h2, h3, h4, h5, h6, if_false]

theorem pValue_arr_nil (round : JNum → JNum) (f : Nat) (rest : Text) :
    pValue round (f + 1) (cLBracket :: cRBracket :: rest) = some (JVal.arr [], rest) := by
  rw [pValue, skipWs_cons _ (by decide)]
  have h1 : cLBracket ≠ cLowerN := by decide
  have h2 : cLBracket ≠ cLowerT := by decide
  have h3 : cLBracket ≠ cLowerF := by decide
  have h4 : cLBracket ≠ cQuote := by decide
  simp only [h1, h2, h3, h4, if_false, if_true, skipWs_cons _ (show isWs cRBracket = false by decide)]

theorem pValue_arr (round : JNum → JNum) (f : Nat) (c : Nat) (t : Text) (hc : ValueStart c) :
    pValue round (f + 1) (cLBracket :: c :: t) =
      (pElems round f (c :: t)).map (fun p => (JVal.arr p.1, p.2)) := by
  rw [pValue, skipWs_cons _ (by decide)]
  have h1 : cLBracket ≠ cLowerN := by decide
  have h2 : cLBracket ≠ cLowerT := by decide
  have h3 : cLBracket ≠ cLowerF := by decide
  have h4 : cLBracket ≠ cQuote := by decide
  simp only [h1, h2, h3, h4, if_false, if_true, skipWs_cons _ hc.notWs, hc.ne_close.1]

theorem pValue_obj_nil (round : JNum → JNum) (f : Nat) (rest : Text) :
    pValue round (f + 1) (cLBrace :: cRBrace :: rest) = some (JVal.obj [], rest) := by
  rw [pValue, skipWs_cons _ (by decide)]
  have h1 : cLBrace ≠ cLowerN := by decide
  have h2 : cLBrace ≠ cLowerT := by decide
  have h3 : cLBrace ≠ cLowerF := by decide
  have h4 : cLBrace ≠ cQuote := by decide
  have h5 : cLBrace ≠ cLBracket := by decide
  simp only [h1, h2, h3, h4, h5, if_false, if_true,
    skipWs_cons _ (show isWs cRBrace = false by decide)]

theorem pValue_obj (round : JNum → JNum) (f : Nat) (t : Text) :
    pValue round (f + 1) (cLBrace :: cQuote :: t) =
      (pProps round f (cQuote :: t)).map (fun p => (JVal.obj (buildObj p.1), p.2)) := by
  rw [pValue, skipWs_cons _ (by decide)]
  have h1 : cLBrace ≠ cLowerN := by decide
  have h2 : cLBrace ≠ cLowerT := by decide
  have h3 : cLBrace ≠ cLowerF := by decide
  have h4 : cLBrace ≠ cQuote := by decide
  have h5 : cLBrace ≠ cLBracket := by decide
  have h6 : cQuote ≠ cRBrace := by decide
  simp only [h1, h2, h3, h4, h5, h6, if_false, if_true,
    skipWs_cons _ (show isWs cQuote = false by decide)]

theorem render_head (v : JVal) : ∃ c t, render v = c :: t ∧ ValueStart c := by
  cases v with
  | undefined => exact ⟨cLowerN, _, rfl, Or.inl rfl⟩
  | null => exact ⟨cLowerN, _, rfl, Or.inl rfl⟩
  | bool b =>
    cases b
    · exact ⟨cLowerF, _, rfl, Or.inr (Or.inr (Or.inl rfl))⟩
    · exact ⟨cLowerT, _, rfl, Or.inr (Or.inl rfl)⟩
  | num x =>
    cases x with
    | nan => exact ⟨cLowerN, _, rfl, Or.inl rfl⟩
    | inf s => exact ⟨cLowerN, _, rfl, Or.inl rfl⟩
    | fin neg ds n =>
      obtain ⟨c, t, h, hc⟩ := renderNum_fin_head neg ds n
      refine ⟨c, t, by rw [render, h], ?_⟩
      rcases hc with hc | hc
      · exact Or.inr (Or.inr (Or.inr (Or.inr (Or.inr (Or.inr (Or.inl hc))))))
      · exact Or.inr (Or.inr (Or.inr (Or.inr (Or.inr (Or.inr (Or.inr hc))))))
  | str s => exact ⟨cQuote, _, rfl, Or.inr (Or.inr (Or.inr (Or.inl rfl)))⟩
  | arr xs => exact ⟨cLBracket, _, by rw [render], Or.inr (Or.inr (Or.inr (Or.inr (Or.inl rfl))))⟩
  | obj ps =>
    exact ⟨cLBrace, _, by rw [render], Or.inr (Or.inr (Or.inr (Or.inr (Or.inr (Or.inl rfl)))))⟩

/-! ## Reading back the text of a value -/

theorem delim_nil : Delim [] := by
  intro c r h; cases h

theorem delim_comma (t : Text) : Delim (cComma :: t) := by
  intro c r h; cases h; exact Or.inl rfl

theorem delim_bracket (t : Text) : Delim (cRBracket :: t) := by
  intro c r h; cases h; exact Or.inr (Or.inl rfl)

theorem delim_brace (t : Text) : Delim (cRBrace :: t) := by
  intro c r h; cases h; exact Or.inr (Or.inr rfl)

theorem delim_renderTail (xs : List JVal) (rest : Text) :
    Delim (renderTail xs ++ cRBracket :: rest) := by
  cases xs with
  | nil => exact delim_bracket rest
  | cons x xs => rw [renderTail]; exact delim_comma _

theorem renderPropsTail_cases (ps : List (Text × JVal)) :
    renderPropsTail ps = [] ∨ ∃ t, renderPropsTail ps = cComma :: t := by
  induction ps with
  | nil => left; rfl
  | cons p ps ih =>
    obtain ⟨k, v⟩ := p
    cases v with
    | undefined => simpa only [renderPropsTail] using ih
    | _ => right; simp [renderPropsTail]

theorem delim_renderPropsTail (ps : List (Text × JVal)) (rest : Text) :
    Delim (renderPropsTail ps ++ cRBrace :: rest) := by
  rcases renderPropsTail_cases ps with h | ⟨t, h⟩
  · rw [h]; exact delim_brace rest
  · rw [h]; exact delim_comma _

/-- One property and what follows it, as `pProps` reads them. -/
theorem pProps_step (round : JNum → JNum) (f : Nat) (k : Text) (v : JVal) (tail rest : Text)
    (hv : pValue round f (render v ++ (tail ++ cRBrace :: rest)) =
      some (norm v, tail ++ cRBrace :: rest)) :
    pProps round (f + 1) ((quote k ++ cColon :: (render v ++ tail)) ++ cRBrace :: rest) =
      match skipWs (tail ++ cRBrace :: rest) with
      | [] => none
      | c :: r4 =>
        if c = cComma then (pProps round f r4).map (fun p => ((k, norm v) :: p.1, p.2))
        else if c = cRBrace then some ([(k, norm v)], r4)
        else none := by
  rw [pProps, quote, List.cons_append, List.cons_append, skipWs_cons _ (by decide)]
  simp only [if_true, List.append_assoc, List.singleton_append, List.cons_append,
    List.nil_append, pString_quoted, skipWs_cons _ (show isWs cColon = false by decide), hv]
  try rfl

theorem isValue_arr {round : JNum → JNum} {xs : List JVal}
    (h : isValue round (.arr xs) = true) : isValues round xs = true := by
  simpa [isValue] using h

theorem isValue_obj {round : JNum → JNum} {ps : List (Text × JVal)}
    (h : isValue round (.obj ps) = true) :
    orderedKeys (ps.map (fun p => p.1)) = true ∧ isProps round ps = true := by
  simpa [isValue] using h

theorem isValues_cons {round : JNum → JNum} {x : JVal} {xs : List JVal}
    (h : isValues round (x :: xs) = true) :
    isValue round x = true ∧ isValues round xs = true := by
  simpa [isValues] using h

theorem isProps_cons {round : JNum → JNum} {k : Text} {v : JVal} {ps : List (Text × JVal)}
    (h : isProps round ((k, v) :: ps) = true) :
    isValue round v = true ∧ isProps round ps = true := by
  simpa [isProps] using h

mutual
/-- The text `JSON.stringify` writes for a value of the platform reads back, with
enough fuel, as the value in the form `norm` gives. -/
theorem pValue_render (round : JNum → JNum) : ∀ (v : JVal) (fuel : Nat) (rest : Text),
    isValue round v = true → need v ≤ fuel → Delim rest →
    pValue round fuel (render v ++ rest) = some (norm v, rest)
  | .undefined, fuel, rest, _, hf, _ => by
    obtain ⟨f, rfl⟩ : ∃ f, fuel = f + 1 := ⟨fuel - 1, by simp [need] at hf; omega⟩
    exact pValue_null round f rest
  | .null, fuel, rest, _, hf, _ => by
    obtain ⟨f, rfl⟩ : ∃ f, fuel = f + 1 := ⟨fuel - 1, by simp [need] at hf; omega⟩
    exact pValue_null round f rest
  | .bool true, fuel, rest, _, hf, _ => by
    obtain ⟨f, rfl⟩ : ∃ f, fuel = f + 1 := ⟨fuel - 1, by simp [need] at hf; omega⟩
    exact pValue_true round f rest
  | .bool false, fuel, rest, _, hf, _ => by
    obtain ⟨f, rfl⟩ : ∃ f, fuel = f + 1 := ⟨fuel - 1, by simp [need] at hf; omega⟩
    exact pValue_false round f rest
  | .num .nan, fuel, rest, _, hf, _ => by
    obtain ⟨f, rfl⟩ : ∃ f, fuel = f + 1 := ⟨fuel - 1, by simp [need] at hf; omega⟩
    exact pValue_null round f rest
  | .num (.inf _), fuel, rest, _, hf, _ => by
    obtain ⟨f, rfl⟩ : ∃ f, fuel = f + 1 := ⟨fuel - 1, by simp [need] at hf; omega⟩
    exact pValue_null round f rest
  | .num (.fin neg ds n), fuel, rest, hv, hf, hd => by
    obtain ⟨f, rfl⟩ : ∃ f, fuel = f + 1 := ⟨fuel - 1, by simp [need] at hf; omega⟩
    obtain ⟨c, t, h, hc⟩ := renderNum_fin_head neg ds n
    rw [render, norm]
    have h2 := pNumber_renderNum round neg ds n rest (by simpa [isValue] using hv) hd
    rw [h, List.cons_append] at h2 ⊢
    rw [pValue_num round f c _ hc, h2]
  | .str s, fuel, rest, _, hf, _ => by
    obtain ⟨f, rfl⟩ : ∃ f, fuel = f + 1 := ⟨fuel - 1, by simp [need] at hf; omega⟩
    exact pValue_str round f s rest
  | .arr xs, fuel, rest, hv, hf, _ => by
    obtain ⟨f, rfl⟩ : ∃ f, fuel = f + 1 := ⟨fuel - 1, by simp [need] at hf; omega⟩
    have ih := pElems_render round xs f rest (isValue_arr hv) (by simp [need] at hf; omega)
    cases xs with
    | nil => exact pValue_arr_nil round f rest
    | cons x xs =>
      obtain ⟨c, t, hc, hs⟩ := render_head x
      have ih2 := ih (by simp)
      rw [render, norm, List.cons_append, List.append_assoc, List.singleton_append]
      rw [renderElems, hc, List.cons_append, List.cons_append] at ih2 ⊢
      rw [pValue_arr round f c _ hs, ih2]
      rfl
  | .obj ps, fuel, rest, hv, hf, _ => by
    obtain ⟨f, rfl⟩ : ∃ f, fuel = f + 1 := ⟨fuel - 1, by simp [need] at hf; omega⟩
    obtain ⟨hord, hps⟩ := isValue_obj hv
    have ih := pProps_render round ps f rest hps (by simp [need] at hf; omega)
    rw [render, norm, List.cons_append, List.append_assoc, List.singleton_append]
    rcases ih with ⟨h1, h2, _⟩ | ⟨k, t, h1, _, h2⟩
    · rw [h1, h2]; exact pValue_obj_nil round f rest
    · rw [h1, quote, List.cons_append, List.cons_append] at h2 ⊢
      rw [pValue_obj, h2]
      simp only [Option.map_some', buildObj_ordered _ (orderedKeys_normProps ps hord)]
/-- The elements of a non-empty array read back. -/
theorem pElems_render (round : JNum → JNum) : ∀ (xs : List JVal) (fuel : Nat) (rest : Text),
    isValues round xs = true → needElems xs ≤ fuel → xs ≠ [] →
    pElems round fuel (renderElems xs ++ cRBracket :: rest) = some (normElems xs, rest)
  | [], _, _, _, _, h => absurd rfl h
  | x :: xs, fuel, rest, hv, hf, _ => by
    obtain ⟨f, rfl⟩ : ∃ f, fuel = f + 1 := ⟨fuel - 1, by simp [needElems] at hf; omega⟩
    obtain ⟨hx, hxs⟩ := isValues_cons hv
    have ihx := pValue_render round x f (renderTail xs ++ cRBracket :: rest) hx
      (by simp [needElems] at hf; omega) (delim_renderTail xs rest)
    have ihxs := pElems_render round xs f rest hxs (by simp [needElems] at hf; omega)
    rw [pElems, renderElems, List.append_assoc, ihx]
    cases xs with
    | nil =>
      have h1 : cRBracket ≠ cComma := by decide
      simp only [renderTail, List.nil_append, skipWs_cons _ (show isWs cRBracket = false by decide),
        h1, if_false, if_true, normElems]
    | cons y ys =>
      have ih2 := ihxs (by simp)
      rw [renderTail, List.cons_append]
      simp only [skipWs_cons _ (show isWs cComma = false by decide), if_true]
      rw [show render y ++ renderTail ys = renderElems (y :: ys) from rfl, ih2]
      rfl
/-- The properties of an object read back: either none is written, or the text
of the properties starts with a quoted key and `pProps` reads it. -/
theorem pProps_render (round : JNum → JNum) :
    ∀ (ps : List (Text × JVal)) (fuel : Nat) (rest : Text),
    isProps round ps = true → needProps ps ≤ fuel →
    (normProps ps = [] ∧ renderProps ps = [] ∧ renderPropsTail ps = []) ∨
    (∃ k t, renderProps ps = quote k ++ t ∧ renderPropsTail ps = cComma :: renderProps ps ∧
      pProps round fuel (renderProps ps ++ cRBrace :: rest) = some (normProps ps, rest))
  | [], _, _, _, _ => Or.inl ⟨rfl, rfl, rfl⟩
  | (k, v) :: ps, fuel, rest, hv, hf => by
    obtain ⟨hvv, hvps⟩ := isProps_cons hv
    by_cases hu : v = .undefined
    · subst hu
      have ih := pProps_render round ps fuel rest hvps (by simpa [needProps] using hf)
      simpa only [normProps, renderProps, renderPropsTail] using ih
    · have hn : needProps ((k, v) :: ps) = need v + needProps ps + 1 := by
        cases v <;> first | exact absurd rfl hu | rfl
      have hr : renderProps ((k, v) :: ps) =
          quote k ++ cColon :: (render v ++ renderPropsTail ps) := by
        cases v <;> first | exact absurd rfl hu | rfl
      have hrt : renderPropsTail ((k, v) :: ps) =
          cComma :: (quote k ++ cColon :: (render v ++ renderPropsTail ps)) := by
        cases v <;> first | exact absurd rfl hu | rfl
      have hnp : normProps ((k, v) :: ps) = (k, norm v) :: normProps ps := by
        cases v <;> first | exact absurd rfl hu | rfl
      rw [hn] at hf
      obtain ⟨f, rfl⟩ : ∃ f, fuel = f + 1 := ⟨fuel - 1, by omega⟩
      have ihv := pValue_render round v f (renderPropsTail ps ++ cRBrace :: rest) hvv (by omega)
        (delim_renderPropsTail ps rest)
      have ihps := pProps_render round ps f rest hvps (by omega)
      right
      refine ⟨k, _, hr, by rw [hrt, hr], ?_⟩
      rw [hr, hnp, pProps_step round f k v _ rest ihv]
      rcases ihps with ⟨h1, _, h3⟩ | ⟨_, _, _, h2, h3⟩
      · have c1 : cRBrace ≠ cComma := by decide
        simp only [h3, h1, List.nil_append, skipWs_cons _ (show isWs cRBrace = false by decide),
          c1, if_false, if_true]
      · rw [h2, List.cons_append]
        simp only [skipWs_cons _ (show isWs cComma = false by decide), if_true, h3, Option.map_some']
end

theorem norm_ne_undefined (v : JVal) : norm v ≠ .undefined := by
  cases v with
  | num x =>
    cases x with
    | fin neg ds n =>
      rw [norm]; simp only [normNum]
      split <;> simp
    | _ => simp [norm, normNum]
  | _ => simp [norm]

theorem renderProps_cons (k : Text) (v : JVal) (ps : List (Text × JVal))
    (hu : v ≠ .undefined) :
    renderProps ((k, v) :: ps) = quote k ++ cColon :: (render v ++ renderPropsTail ps) := by
  cases v <;> first | exact absurd rfl hu | rfl

theorem renderPropsTail_cons (k : Text) (v : JVal) (ps : List (Text × JVal))
    (hu : v ≠ .undefined) :
    renderPropsTail ((k, v) :: ps) =
      cComma :: (quote k ++ cColon :: (render v ++ renderPropsTail ps)) := by
  cases v <;> first | exact absurd rfl hu | rfl

theorem normProps_cons (k : Text) (v : JVal) (ps : List (Text × JVal))
    (hu : v ≠ .undefined) : normProps ((k, v) :: ps) = (k, norm v) :: normProps ps := by
  cases v <;> first | exact absurd rfl hu | rfl

theorem needProps_cons (k : Text) (v : JVal) (ps : List (Text × JVal))
    (hu : v ≠ .undefined) : needProps ((k, v) :: ps) = need v + needProps ps + 1 := by
  cases v <;> first | exact absurd rfl hu | rfl

mutual
/-- Writing the value that was read back gives the same text. -/
theorem render_norm : ∀ v : JVal, render (norm v) = render v
  | .undefined => rfl
  | .null => rfl
  | .bool _ => rfl
  | .num .nan => rfl
  | .num (.inf _) => rfl
  | .num (.fin neg ds n) => by rw [norm, renderNum_normNum, render]
  | .str _ => rfl
  | .arr xs => by rw [norm, render, render, (renderElems_norm xs).1]
  | .obj ps => by rw [norm, render, render, (renderProps_norm ps).1]
/-- Writing the elements that were read back gives the same text. -/
theorem renderElems_norm : ∀ xs : List JVal,
    renderElems (normElems xs) = renderElems xs ∧ renderTail (normElems xs) = renderTail xs
  | [] => ⟨rfl, rfl⟩
  | x :: xs => by
    have h1 := render_norm x
    have h2 := (renderElems_norm xs).2
    constructor
    · rw [normElems, renderElems, renderElems, h1, h2]
    · rw [normElems, renderTail, renderTail, h1, h2]
/-- Writing the properties that were read back gives the same text. -/
theorem renderProps_norm : ∀ ps : List (Text × JVal),
    renderProps (normProps ps) = renderProps ps ∧
      renderPropsTail (normProps ps) = renderPropsTail ps
  | [] => ⟨rfl, rfl⟩
  | (k, v) :: ps => by
    have h2 := renderProps_norm ps
    by_cases hu : v = .undefined
    · subst hu
      simpa only [normProps, renderProps, renderPropsTail] using h2
    · have h1 := render_norm v
      rw [normProps_cons k v ps hu, renderProps_cons k _ _ (norm_ne_undefined v),
        renderPropsTail_cons k _ _ (norm_ne_undefined v), renderProps_cons k v ps hu,
        renderPropsTail_cons k v ps hu, h1, h2.2]
      exact ⟨rfl, rfl⟩
end

theorem renderTail_length (xs : List JVal) :
    (renderTail xs).length ≤ (renderElems xs).length + 1 := by
  cases xs with
  | nil => simp [renderTail]
  | cons x xs => simp [renderTail, renderElems]

theorem renderPropsTail_length (ps : List (Text × JVal)) :
    (renderPropsTail ps).length ≤ (renderProps ps).length + 1 := by
  induction ps with
  | nil => simp [renderPropsTail]
  | cons p ps ih =>
    obtain ⟨k, v⟩ := p
    by_cases hu : v = .undefined
    · subst hu; simpa only [renderProps, renderPropsTail] using ih
    · rw [renderProps_cons k v ps hu, renderPropsTail_cons k v ps hu]
      simp

mutual
/-- The fuel a value needs is at most the length of its text. -/
theorem need_le : ∀ v : JVal, need v ≤ (render v).length
  | .arr xs => by
    have h := needElems_le xs
    have h2 := renderTail_length xs
    rw [need, render]
    simp only [List.length_cons, List.length_append, List.length_nil]
    omega
  | .obj ps => by
    have h := needProps_le ps
    have h2 := renderPropsTail_length ps
    rw [need, render]
    simp only [List.length_cons, List.length_append, List.length_nil]
    omega
  | .undefined => by simp [need, render, litNull]
  | .null => by simp [need, render, litNull]
  | .bool true => by simp [need, render, litTrue]
  | .bool false => by simp [need, render, litFalse]
  | .str s => by simp [need, render, quote]
  | .num x => by
    obtain ⟨c, t, h, _⟩ := render_head (.num x)
    rw [h]; simp [need]
/-- The fuel the elements need is at most the length of their text. -/
theorem needElems_le : ∀ xs : List JVal, needElems xs ≤ (renderTail xs).length
  | [] => by simp [needElems]
  | x :: xs => by
    have h1 := need_le x
    have h2 := needElems_le xs
    rw [needElems, renderTail]
    simp only [List.length_cons, List.length_append]
    omega
/-- The fuel the properties need is at most the length of their text. -/
theorem needProps_le : ∀ ps : List (Text × JVal),
    needProps ps ≤ (renderPropsTail ps).length
  | [] => by simp [needProps]
  | (k, v) :: ps => by
    have h2 := needProps_le ps
    by_cases hu : v = .undefined
    · subst hu; simpa only [needProps, renderPropsTail] using h2
    · have h1 := need_le v
      rw [needProps_cons k v ps hu, renderPropsTail_cons k v ps hu]
      simp only [List.length_cons, List.length_append]
      omega
end

/-- The text `JSON.stringify` writes for a value of the platform parses, and to
the value in the form `norm` gives. -/
theorem parse_render (round : JNum → JNum) (v : JVal) (hv : isValue round v = true) :
    parse round (render v) = some (norm v) := by
  have h := pValue_render round v ((render v).length + 1) [] hv
    (by have := need_le v; omega) delim_nil
  rw [List.append_nil] at h
  simp only [parse, h, skipWs, if_true]

theorem stringify_of_ne {v : JVal} (h : v ≠ .undefined) : stringify v = render v := by
  cases v <;> first | exact absurd rfl h | rfl

/-- For a value `v` of the platform `JSON.parse(JSON.stringify(v))` succeeds, and
its value serialises to the same text as `v`. -/
theorem parse_stringify (round : JNum → JNum) (v : JVal) (h : v ≠ .undefined)
    (hv : isValue round v = true) :
    ∃ w, parse round (stringify v) = some w ∧ stringify w = stringify v := by
  refine ⟨norm v, ?_, ?_⟩
  · rw [stringify_of_ne h, parse_render round v hv]
  · rw [stringify_of_ne h, stringify_of_ne (norm_ne_undefined v), render_norm]

/-! ## The comparison with a natural number -/

theorem gtNat_iff_exceeds (x : JNum) (k : Nat) : x.gtNat k = true ↔ x.exceeds k := by
  cases x with
  | nan => simp [JNum.gtNat, JNum.exceeds]
  | inf neg => cases neg <;> simp [JNum.gtNat, JNum.exceeds]
  | fin neg ds n =>
    have hpos : (0 : ℚ) < (10 : ℚ) ^ (n - (ds.length : Int)) := zpow_pos (by norm_num) _
    cases neg
    · by_cases h : (ds.length : Int) ≤ n
      · have e : (10 : ℚ) ^ (n - (ds.length : Int)) = ((10 ^ (n - ds.length).toNat : ℕ) : ℚ) := by
          have : n - (ds.length : Int) = (((n - ds.length).toNat : ℕ) : ℤ) := by omega
          rw [this, zpow_natCast]; simp
        simp only [JNum.gtNat, JNum.exceeds, Bool.false_eq_true, if_false, h, if_true,
          decide_eq_true_eq, one_mul, e]
        rw [← Nat.cast_mul, Nat.cast_lt]
      · have e : (10 : ℚ) ^ (n - (ds.length : Int)) =
            (((10 ^ ((ds.length : Int) - n).toNat : ℕ) : ℚ))⁻¹ := by
          have : n - (ds.length : Int) = -((((ds.length : Int) - n).toNat : ℕ) : ℤ) := by omega
          rw [this, zpow_neg, zpow_natCast]; simp
        have hp : (0 : ℚ) < ((10 ^ ((ds.length : Int) - n).toNat : ℕ) : ℚ) := by positivity
        simp only [JNum.gtNat, JNum.exceeds, Bool.false_eq_true, if_false, h,
          decide_eq_true_eq, one_mul, e]
        rw [← div_eq_mul_inv, lt_div_iff₀ hp, ← Nat.cast_mul, Nat.cast_lt]
    · simp only [JNum.gtNat, JNum.exceeds, if_true, Bool.false_eq_true, false_iff, not_lt]
      have h1 : (0 : ℚ) ≤ (digitsVal ds : ℚ) := Nat.cast_nonneg _
      have h2 : (0 : ℚ) ≤ (k : ℚ) := Nat.cast_nonneg _
      have h3 : (0 : ℚ) ≤ (digitsVal ds : ℚ) * (10 : ℚ) ^ (n - (ds.length : Int)) :=
        mul_nonneg h1 hpos.le
      have : -1 * (digitsVal ds : ℚ) * (10 : ℚ) ^ (n - (ds.length : Int)) =
          -((digitsVal ds : ℚ) * (10 : ℚ) ^ (n - (ds.length : Int))) := by ring
      rw [this]
      linarith

/-! ## The store and the handler -/

theorem selectKey_nil_keyPresent (st : Store) (key : String) (h : selectKey st key = []) :
    keyPresent st key = false := by
  unfold selectKey at h
  unfold keyPresent
  rw [List.filter_eq_nil_iff] at h
  rw [List.any_eq_false]
  exact h

theorem selectKey_addKey (st : Store) (key : String) (snap : Text) :
    selectKey (st.addKey key snap) key = selectKey st key ++ [(key, snap)] := by
  simp [selectKey, Store.addKey, List.filter_append]

theorem replay_stringify (env : Env) (v : JVal) (h : v ≠ .undefined)
    (hv : isValue env.round v = true) :
    replay env (stringify v) = resJson 200 v := by
  obtain ⟨w, hw, hs⟩ := parse_stringify env.round v h hv
  simp [replay, hw, resJson, hs]

theorem replay_congr (env1 env2 : Env) (snap : Text) (h : env1.round = env2.round) :
    replay env1 snap = replay env2 snap := by
  simp [replay, h]

theorem charge_no_key (env : Env) (req : Request) (st : Store)
    (h : req.idempotencyKey = none ∨ req.idempotencyKey = some "") :
    charge env req st =
      { outcome := .sent (resJson 400 keyRequired), store := st, calls := [] } := by
  rcases h with h | h <;> simp [charge, h]

theorem charge_hit (env : Env) (req : Request) (st : Store) (key : String)
    (row : String × Text) (rest : List (String × Text))
    (hk : req.idempotencyKey = some key) (hne : key ≠ "") (hs : env.selectFails = false)
    (hsel : selectKey st key = row :: rest) :
    charge env req st =
      { outcome := .sent (replay env row.2), store := st,
        calls := [⟨.selectKey key, true⟩] } := by
  simp [charge, hk, hne, hs, hsel]

theorem charge_miss (env : Env) (req : Request) (st : Store) (key : String)
    (o a m : JVal) (x : JNum)
    (hk : req.idempotencyKey = some key) (hne : key ≠ "") (hs : env.selectFails = false)
    (hsel : selectKey st key = []) (hb : destructure req.body = some (o, a, m))
    (hx : toNumber env a = some x) :
    charge env req st =
      persist env (afterRival env st key) key ⟨.selectKey key, true⟩
        (buildRow env o a m (chargeStatus x)) (buildResp env o a m (chargeStatus x)) := by
  simp [charge, hk, hne, hs, hsel, hb, hx]

theorem charge_miss_throws (env : Env) (req : Request) (st : Store) (key : String)
    (hk : req.idempotencyKey = some key) (hne : key ≠ "") (hs : env.selectFails = false)
    (hsel : selectKey st key = [])
    (hb : destructure req.body = none ∨
      ∃ o a m, destructure req.body = some (o, a, m) ∧ toNumber env a = none) :
    charge env req st =
      { outcome := .threw, store := st, calls := [⟨.selectKey key, true⟩] } := by
  rcases hb with hb | ⟨o, a, m, hb, hx⟩
  · simp [charge, hk, hne, hs, hsel, hb]
  · simp [charge, hk, hne, hs, hsel, hb, hx]

theorem persist_quiet (env : Env) (st : Store) (key : String) (sel : Call) (row : PaymentRow)
    (resp : JVal) (hq : env.quiet) (hsel : selectKey st key = []) :
    persist env st key sel row resp =
      { outcome := .sent (resJson 200 resp),
        store := (st.addPayment row).addKey key (stringify resp),
        calls := [sel, ⟨.insertPayment row, true⟩, ⟨.insertKey key (stringify resp), true⟩] } := by
  obtain ⟨_, _, h3, h4⟩ := hq
  have hp : keyPresent (st.addPayment row) key = false := selectKey_nil_keyPresent st key hsel
  simp [persist, h3, h4, hp]

theorem afterRival_quiet (env : Env) (st : Store) (key : String) (hq : env.quiet) :
    afterRival env st key = st := by
  simp [afterRival, hq.2.1]

theorem buildResp_ne_undefined (env : Env) (o a m : JVal) (s : String) :
    buildResp env o a m s ≠ .undefined := by
  simp [buildResp]

theorem charge_select_fails (env : Env) (req : Request) (st : Store) (key : String)
    (hk : req.idempotencyKey = some key) (hne : key ≠ "") (hs : env.selectFails = true) :
    charge env req st =
      { outcome := .threw, store := st, calls := [⟨.selectKey key, false⟩] } := by
  simp [charge, hk, hne, hs]

/-- The three ways the persist block ends. -/
theorem persist_cases (env : Env) (st : Store) (key : String) (sel : Call) (row : PaymentRow)
    (resp : JVal) :
    (env.paymentInsertFails = true ∧
      persist env st key sel row resp =
        { outcome := .sent (resJson 500 persistFailed), store := st,
          calls := [sel, ⟨.insertPayment row, false⟩] }) ∨
    (env.paymentInsertFails = false ∧ (keyPresent st key = true ∨ env.keyInsertFails = true) ∧
      persist env st key sel row resp =
        { outcome := .sent (resJson 500 persistFailed), store := st.addPayment row,
          calls := [sel, ⟨.insertPayment row, true⟩,
            ⟨.insertKey key (stringify resp), false⟩] }) ∨
    (env.paymentInsertFails = false ∧ keyPresent st key = false ∧ env.keyInsertFails = false ∧
      persist env st key sel row resp =
        { outcome := .sent (resJson 200 resp),
          store := (st.addPayment row).addKey key (stringify resp),
          calls := [sel, ⟨.insertPayment row, true⟩,
            ⟨.insertKey key (stringify resp), true⟩] }) := by
  have hp : keyPresent (st.addPayment row) key = keyPresent st key := rfl
  cases h1 : env.paymentInsertFails
  · cases h2 : keyPresent st key
    · cases h3 : env.keyInsertFails
      · right; right
        simp [persist, h1, h2, h3, hp]
      · right; left
        simp [persist, h1, h2, h3, hp]
    · right; left
      simp [persist, h1, h2, hp]
  · left
    simp [persist, h1]

/-- The five ways a run of the handler goes. -/
theorem charge_cases (env : Env) (req : Request) (st : Store) :
    ((req.idempotencyKey = none ∨ req.idempotencyKey = some "") ∧
      charge env req st =
        { outcome := .sent (resJson 400 keyRequired), store := st, calls := [] }) ∨
    (∃ key, req.idempotencyKey = some key ∧ key ≠ "" ∧
      ((env.selectFails = true ∧ charge env req st =
          { outcome := .threw, store := st, calls := [⟨.selectKey key, false⟩] }) ∨
       (env.selectFails = false ∧ ∃ row rest, selectKey st key = row :: rest ∧
          charge env req st =
            { outcome := .sent (replay env row.2), store := st,
              calls := [⟨.selectKey key, true⟩] }) ∨
       (env.selectFails = false ∧ selectKey st key = [] ∧
          charge env req st =
            { outcome := .threw, store := st, calls := [⟨.selectKey key, true⟩] }) ∨
       (env.selectFails = false ∧ selectKey st key = [] ∧
          ∃ o a m x, destructure req.body = some (o, a, m) ∧ toNumber env a = some x ∧
          charge env req st =
            persist env (afterRival env st key) key ⟨.selectKey key, true⟩
              (buildRow env o a m (chargeStatus x))
              (buildResp env o a m (chargeStatus x))))) := by
  cases hk : req.idempotencyKey with
  | none => left; exact ⟨Or.inl rfl, charge_no_key env req st (Or.inl hk)⟩
  | some key =>
    by_cases hne : key = ""
    · subst hne; left; exact ⟨Or.inr rfl, charge_no_key env req st (Or.inr hk)⟩
    · right
      refine ⟨key, rfl, hne, ?_⟩
      cases hs : env.selectFails
      · right
        cases hsel : selectKey st key with
        | cons row rest =>
          left; exact ⟨rfl, row, rest, rfl, charge_hit env req st key row rest hk hne hs hsel⟩
        | nil =>
          right
          cases hb : destructure req.body with
          | none =>
            left
            exact ⟨rfl, rfl, charge_miss_throws env req st key hk hne hs hsel (Or.inl hb)⟩
          | some t =>
            obtain ⟨o, a, m⟩ := t
            cases hx : toNumber env a with
            | none =>
              left
              exact ⟨rfl, rfl, charge_miss_throws env req st key hk hne hs hsel
                (Or.inr ⟨o, a, m, hb, hx⟩)⟩
            | some x =>
              right
              exact ⟨rfl, rfl, o, a, m, x, rfl, hx,
                charge_miss env req st key o a m x hk hne hs hsel hb hx⟩
      · left
        exact ⟨rfl, charge_select_fails env req st key hk hne hs⟩

theorem replay_status (env : Env) (snap : Text) : (replay env snap).status = 200 := by
  unfold replay
  split <;> rfl

/-- A request with a non-empty key is answered, if at all, with 200 or 500. -/
theorem charge_status_of_key (env : Env) (req : Request) (st : Store) (key : String)
    (hk : req.idempotencyKey = some key) (hne : key ≠ "") (r : Response)
    (hr : (charge env req st).outcome = .sent r) : r.status = 200 ∨ r.status = 500 := by
  rcases charge_cases env req st with ⟨h0, _⟩ | ⟨k, hk2, _, h⟩
  · rcases h0 with h0 | h0
    · rw [hk] at h0; cases h0
    · rw [hk] at h0; cases h0; exact absurd rfl hne
  · rcases h with ⟨_, hc⟩ | ⟨_, row, rest, _, hc⟩ | ⟨_, _, hc⟩ | ⟨_, _, o, a, m, x, _, _, hc⟩
    · rw [hc] at hr; cases hr
    · rw [hc] at hr; cases hr; exact Or.inl (replay_status _ _)
    · rw [hc] at hr; cases hr
    · rw [hc] at hr
      rcases persist_cases env (afterRival env st k) k ⟨.selectKey k, true⟩
        (buildRow env o a m (chargeStatus x)) (buildResp env o a m (chargeStatus x)) with
        ⟨_, hp⟩ | ⟨_, _, hp⟩ | ⟨_, _, _, hp⟩
      · rw [hp] at hr; cases hr; exact Or.inr rfl
      · rw [hp] at hr; cases hr; exact Or.inr rfl
      · rw [hp] at hr; cases hr; exact Or.inl rfl

theorem afterRival_keys (env : Env) (st : Store) (key : String) :
    ∃ extra, (afterRival env st key).idempotency_keys = st.idempotency_keys ++ extra ∧
      (∀ e ∈ extra, e.1 = key) ∧ (afterRival env st key).payments = st.payments := by
  unfold afterRival
  split
  · exact ⟨[], by simp, by simp, rfl⟩
  · rename_i snap _
    exact ⟨[(key, snap)], rfl, by simp, rfl⟩

theorem selectKey_addKey_ne (st : Store) (k1 k2 : String) (snap : Text) (h : k1 ≠ k2) :
    selectKey (st.addKey k1 snap) k2 = selectKey st k2 := by
  simp [selectKey, Store.addKey, List.filter_append, h]

/-! ### Values of the platform in the handler -/

theorem isValue_lookup (round : JNum → JNum) (k : Text) :
    ∀ (ps : List (Text × JVal)), isProps round ps = true →
    isValue round ((ps.lookup k).getD .undefined) = true := by
  intro ps
  induction ps with
  | nil => intro _; rfl
  | cons p ps ih =>
    obtain ⟨k2, v⟩ := p
    intro h
    obtain ⟨hv, hps⟩ := isProps_cons h
    rw [List.lookup_cons]
    by_cases hk : k == k2
    · simp only [hk, Option.getD_some]; exact hv
    · simp only [hk]; exact ih hps

theorem isValue_getProp (round : JNum → JNum) (ps : List (Text × JVal)) (k : String)
    (h : isValue round (.obj ps) = true) : isValue round (getProp ps k) = true :=
  isValue_lookup round (utf16 k) ps (isValue_obj h).2

/-- The three values the handler takes from a body of the platform are values
of the platform. -/
theorem isValue_destructure (round : JNum → JNum) (body : Option JVal) (o a m : JVal)
    (hb : ∀ b, body = some b → isValue round b = true)
    (hd : destructure body = some (o, a, m)) :
    isValue round o = true ∧ isValue round a = true ∧ isValue round m = true := by
  cases body with
  | none => simp [destructure] at hd
  | some b =>
    have hv := hb b rfl
    cases b with
    | obj ps =>
      simp only [destructure, Option.some.injEq, Prod.mk.injEq] at hd
      obtain ⟨rfl, rfl, rfl⟩ := hd
      exact ⟨isValue_getProp round ps _ hv, isValue_getProp round ps _ hv,
        isValue_getProp round ps _ hv⟩
    | undefined => simp [destructure] at hd
    | null => simp [destructure] at hd
    | _ =>
      simp only [destructure, Option.some.injEq, Prod.mk.injEq] at hd
      obtain ⟨rfl, rfl, rfl⟩ := hd
      exact ⟨rfl, rfl, rfl⟩

/-- The object `resp` is a value of the platform when `Date.now()` is a Number
of the platform and the three values from the body are values of it. -/
theorem isValue_buildResp (round : JNum → JNum) (env : Env) (o a m : JVal) (s : String)
    (hn : isNumber round (JNum.ofNat env.now) = true)
    (ho : isValue round o = true) (ha : isValue round a = true)
    (hm : isValue round m = true) :
    isValue round (buildResp env o a m s) = true := by
  have hk : orderedKeys [utf16 "payment_id", utf16 "order_id", utf16 "amount", utf16 "method",
      utf16 "status", utf16 "reference", utf16 "created_at"] = true := by decide
  simp only [buildResp, isValue, isProps, List.map_cons, List.map_nil, hk, hn, ho, ha, hm,
    Bool.and_self]

/-! ### Runs of requests with one key -/

theorem received_hit (key : String) (hne : key ≠ "") (row : String × Text)
    (rest : List (String × Text)) (env0 : Env) :
    ∀ (steps : List (Env × Request)) (st : Store), selectKey st key = row :: rest →
    (∀ s ∈ steps, s.2.idempotencyKey = some key) → (∀ s ∈ steps, s.1.quiet) →
    (∀ s ∈ steps, s.1.round = env0.round) →
    ∀ r ∈ received steps st, r = replay env0 row.2 := by
  intro steps
  induction steps with
  | nil => intro st _ _ _ _ r hr; simp [received] at hr
  | cons s steps ih =>
    intro st hsel hkey hq hround r hr
    obtain ⟨env, req⟩ := s
    have hk : req.idempotencyKey = some key := hkey (env, req) (List.mem_cons_self _ _)
    have hs : env.selectFails = false := (hq (env, req) (List.mem_cons_self _ _)).1
    have hro : env.round = env0.round := hround (env, req) (List.mem_cons_self _ _)
    have hc := charge_hit env req st key row rest hk hne hs hsel
    simp only [received, hc, clientSees, List.mem_cons] at hr
    rcases hr with hr | hr
    · rw [hr]; exact replay_congr env env0 _ hro
    · exact ih st hsel (fun s hs => hkey s (List.mem_cons_of_mem _ hs))
        (fun s hs => hq s (List.mem_cons_of_mem _ hs))
        (fun s hs => hround s (List.mem_cons_of_mem _ hs)) r hr

theorem received_no_key :
    ∀ (steps : List (Env × Request)) (st : Store),
    (∀ s ∈ steps, s.2.idempotencyKey = some "") →
    ∀ r ∈ received steps st, r = resJson 400 keyRequired := by
  intro steps
  induction steps with
  | nil => intro st _ r hr; simp [received] at hr
  | cons s steps ih =>
    intro st hkey r hr
    obtain ⟨env, req⟩ := s
    have hk : req.idempotencyKey = some "" := hkey (env, req) (List.mem_cons_self _ _)
    have hc := charge_no_key env req st (Or.inr hk)
    simp only [received, hc, clientSees, List.mem_cons] at hr
    rcases hr with hr | hr
    · exact hr
    · exact ih st (fun s hs => hkey s (List.mem_cons_of_mem _ hs)) r hr

theorem head_of_all_eq (rs : List Response) (x : Response) (h : ∀ r ∈ rs, r = x) :
    ∀ r ∈ rs, rs.head? = some r := by
  intro r hr
  cases rs with
  | nil => cases hr
  | cons y ys =>
    have h1 := h y (List.mem_cons_self _ _)
    have h2 := h r hr
    simp [h1, h2]

/-- Requests with one key, every store call succeeding, every run that throws left
without a response, bodies and clock values being values of the platform: every
response received equals the first one received. -/
theorem received_one_key (key : String) (round : JNum → JNum) :
    ∀ (steps : List (Env × Request)) (st : Store),
    (∀ s ∈ steps, s.2.idempotencyKey = some key) → (∀ s ∈ steps, s.1.quiet) →
    Silent steps st →
    (∀ s ∈ steps, s.1.round = round) →
    (∀ s ∈ steps, isNumber round (JNum.ofNat s.1.now) = true) →
    (∀ s ∈ steps, ∀ b, s.2.body = some b → isValue round b = true) →
    ∀ r ∈ received steps st, (received steps st).head? = some r := by
  by_cases hne : key = ""
  · subst hne
    intro steps st hkey _ _ _ _ _
    exact head_of_all_eq _ _ (received_no_key steps st hkey)
  intro steps
  induction steps with
  | nil => intro st _ _ _ _ _ _ r hr; simp [received] at hr
  | cons s steps ih =>
    intro st hkey hq hsil hround hnow hbody
    obtain ⟨env, req⟩ := s
    have hk : req.idempotencyKey = some key := hkey (env, req) (List.mem_cons_self _ _)
    have hqe : env.quiet := hq (env, req) (List.mem_cons_self _ _)
    have hre : env.round = round := hround (env, req) (List.mem_cons_self _ _)
    have hkey2 : ∀ s ∈ steps, s.2.idempotencyKey = some key :=
      fun s hs => hkey s (List.mem_cons_of_mem _ hs)
    have hq2 : ∀ s ∈ steps, s.1.quiet := fun s hs => hq s (List.mem_cons_of_mem _ hs)
    have hround2 : ∀ s ∈ steps, s.1.round = round :=
      fun s hs => hround s (List.mem_cons_of_mem _ hs)
    have hnow2 : ∀ s ∈ steps, isNumber round (JNum.ofNat s.1.now) = true :=
      fun s hs => hnow s (List.mem_cons_of_mem _ hs)
    have hbody2 : ∀ s ∈ steps, ∀ b, s.2.body = some b → isValue round b = true :=
      fun s hs => hbody s (List.mem_cons_of_mem _ hs)
    cases hsel : selectKey st key with
    | cons row rest =>
      exact head_of_all_eq _ _ (received_hit key hne row rest env _ st hsel hkey hq
        (fun s hs => (hround s hs).trans hre.symm))
    | nil =>
      have hthrow : ∀ hb, charge env req st =
          { outcome := .threw, store := st, calls := [⟨.selectKey key, true⟩] } :=
        fun hb => charge_miss_throws env req st key hk hne hqe.1 hsel hb
      have hskip : charge env req st =
          { outcome := .threw, store := st, calls := [⟨.selectKey key, true⟩] } →
          ∀ r ∈ received ((env, req) :: steps) st,
            (received ((env, req) :: steps) st).head? = some r := by
        intro hc
        have hs2 : Silent ((env, req) :: steps) st := hsil
        simp only [Silent, hc, true_implies] at hs2
        simp only [received, hc, clientSees, hs2.1]
        exact ih st hkey2 hq2 hs2.2 hround2 hnow2 hbody2
      cases hb : destructure req.body with
      | none => exact hskip (hthrow (Or.inl hb))
      | some t =>
        obtain ⟨o, a, m⟩ := t
        cases hx : toNumber env a with
        | none => exact hskip (hthrow (Or.inr ⟨o, a, m, hb, hx⟩))
        | some x =>
          have hc := charge_miss env req st key o a m x hk hne hqe.1 hsel hb hx
          rw [afterRival_quiet env st key hqe, persist_quiet env st key _ _ _ hqe hsel] at hc
          have hsel2 : selectKey ((st.addPayment (buildRow env o a m (chargeStatus x))).addKey key
              (stringify (buildResp env o a m (chargeStatus x)))) key =
              (key, stringify (buildResp env o a m (chargeStatus x))) :: [] := by
            rw [selectKey_addKey]
            have : selectKey (st.addPayment (buildRow env o a m (chargeStatus x))) key = [] := hsel
            rw [this]; rfl
          obtain ⟨ho, ha, hm⟩ := isValue_destructure round req.body o a m
            (hbody (env, req) (List.mem_cons_self _ _)) hb
          have hresp : isValue env.round (buildResp env o a m (chargeStatus x)) = true := by
            rw [hre]
            exact isValue_buildResp round env o a m _
              (hnow (env, req) (List.mem_cons_self _ _)) ho ha hm
          have hrest := received_hit key hne _ _ env steps _ hsel2 hkey2 hq2
            (fun s hs => (hround s (List.mem_cons_of_mem _ hs)).trans hre.symm)
          rw [replay_stringify env _ (buildResp_ne_undefined env o a m _) hresp] at hrest
          apply head_of_all_eq _ (resJson 200 (buildResp env o a m (chargeStatus x)))
          intro r hr
          simp only [received, hc, clientSees, List.mem_cons] at hr
          rcases hr with hr | hr
          · exact hr
          · exact hrest r hr

/-! ## The claims -/

set_option maxRecDepth 100000

/-! ### C1: idempotence -/

/-- C1, counterexample: two requests carry `key-1` and every store call succeeds.  The
amount of the first is `{valueOf: 0, toString: 0}`, so `Number(amount)` throws outside
the `try` blocks and the handler sends nothing; the framework answers with the 500 of
its error handler.  The second request is answered 200: the second response is not
identical to the first. -/
theorem throwing_run_answered :
    (∀ s ∈ throwingSteps, s.2.idempotencyKey = some "key-1") ∧
    (∀ s ∈ throwingSteps, s.1.quiet) ∧
    (charge errorPageEnv (mkRequest "key-1" (orderBody opaqueAmount)) emptyStore).outcome
      = .threw ∧
    ((charge errorPageEnv (mkRequest "key-1" (orderBody opaqueAmount)) emptyStore).calls.map
      (fun c => c.ok) = [true]) ∧
    received throwingSteps emptyStore =
      [⟨500, utf16 "Internal Server Error"⟩,
       ⟨200, utf16 "\x7b\"payment_id\":1700000000500,\"order_id\":\"o-1\",\"amount\":10000,\"method\":\"card\",\"status\":\"SUCCESS\",\"reference\":\"c0a1d2e3-f4b5-4c6d-8e7f-1a2b3c4d5e6f\",\"created_at\":\"2023-11-14T22:13:20.500Z\"\x7d"⟩] ∧
    ¬ (∀ r ∈ received throwingSteps emptyStore,
        (received throwingSteps emptyStore).head? = some r) := by
  have hrec : received throwingSteps emptyStore =
      [⟨500, utf16 "Internal Server Error"⟩,
       ⟨200, utf16 "\x7b\"payment_id\":1700000000500,\"order_id\":\"o-1\",\"amount\":10000,\"method\":\"card\",\"status\":\"SUCCESS\",\"reference\":\"c0a1d2e3-f4b5-4c6d-8e7f-1a2b3c4d5e6f\",\"created_at\":\"2023-11-14T22:13:20.500Z\"\x7d"⟩] := by
    decide
  refine ⟨?_, ?_, rfl, rfl, hrec, ?_⟩
  · intro s hs
    simp only [throwingSteps, List.mem_cons, List.mem_singleton, List.not_mem_nil, or_false] at hs
    rcases hs with rfl | rfl <;> rfl
  · intro s hs
    simp only [throwingSteps, List.mem_cons, List.mem_singleton, List.not_mem_nil, or_false] at hs
    rcases hs with rfl | rfl <;> exact ⟨rfl, rfl, rfl, rfl⟩
  · rw [hrec]
    intro h
    have h2 := h _ (List.mem_cons_of_mem _ (List.mem_singleton.mpr rfl))
    simp only [List.head?_cons, Option.some.injEq] at h2
    have h3 := congrArg Response.status h2
    simp at h3

/-- C1, as amended: requests carrying one key are handled one after another, every
store call succeeds, and every run in which the handler throws outside its `try`
blocks is left without a response (as when no run throws).  The bodies of the requests
are values of the platform and `Date.now()` is a Number of it.  Then every response a
client receives equals the first one received, in status and in bytes; and the replay
branch, run on the snapshot `JSON.stringify(resp)` that a first call stored, sends
exactly the status and the bytes of `res.status(200).json(resp)`. -/
theorem charge_idempotent (key : String) (round : JNum → JNum)
    (steps : List (Env × Request)) (st : Store)
    (hkey : ∀ s ∈ steps, s.2.idempotencyKey = some key)
    (hquiet : ∀ s ∈ steps, s.1.quiet)
    (hsilent : Silent steps st)
    (hround : ∀ s ∈ steps, s.1.round = round)
    (hnow : ∀ s ∈ steps, isNumber round (JNum.ofNat s.1.now) = true)
    (hbody : ∀ s ∈ steps, ∀ b, s.2.body = some b → isValue round b = true) :
    (∀ r ∈ received steps st, (received steps st).head? = some r) ∧
    (∀ (env env2 : Env) (o a m : JVal) (s : String),
        isValue env2.round (buildResp env o a m s) = true →
        replay env2 (stringify (buildResp env o a m s)) =
          resJson 200 (buildResp env o a m s)) :=
  ⟨received_one_key key round steps st hkey hquiet hsilent hround hnow hbody,
    fun env env2 o a m s hv =>
      replay_stringify env2 _ (buildResp_ne_undefined env o a m s) hv⟩

theorem silentSteps_mem {p : Env × Request → Prop}
    (h1 : p (sampleEnv, mkRequest "key-1" (orderBody opaqueAmount)))
    (h2 : p (sampleEnv, mkRequest "key-1" (orderBody (.num tenThousandAndCent))))
    (h3 : p (laterEnv, mkRequest "key-1" (orderBody (.num zero)))) :
    ∀ s ∈ silentSteps, p s := by
  intro s hs
  simp only [silentSteps, sampleSteps, List.mem_cons, List.mem_singleton, List.not_mem_nil,
    or_false] at hs
  rcases hs with rfl | rfl | rfl
  · exact h1
  · exact h2
  · exact h3

/-- The two responses received for `silentSteps`, byte for byte: the first run throws
and is left without a response, the second is answered, the third replays. -/
theorem silentSteps_received : received silentSteps emptyStore =
    [⟨200, utf16 "\x7b\"payment_id\":1700000000000,\"order_id\":\"o-1\",\"amount\":10000.01,\"method\":\"card\",\"status\":\"FAILED\",\"reference\":\"3f2b8c1e-7a4d-4e1b-9c57-0d6a5e8f1b22\",\"created_at\":\"2023-11-14T22:13:20.000Z\"\x7d"⟩,
     ⟨200, utf16 "\x7b\"payment_id\":1700000000000,\"order_id\":\"o-1\",\"amount\":10000.01,\"method\":\"card\",\"status\":\"FAILED\",\"reference\":\"3f2b8c1e-7a4d-4e1b-9c57-0d6a5e8f1b22\",\"created_at\":\"2023-11-14T22:13:20.000Z\"\x7d"⟩] := by
  decide

/-- Witness for C1 as amended: three submissions with key `key-1` and different bodies
on an empty store; the first throws and gets no response. -/
theorem charge_idempotent_witness :
    (∀ r ∈ received silentSteps emptyStore,
        (received silentSteps emptyStore).head? = some r) ∧
    (∀ (env env2 : Env) (o a m : JVal) (s : String),
        isValue env2.round (buildResp env o a m s) = true →
        replay env2 (stringify (buildResp env o a m s)) =
          resJson 200 (buildResp env o a m s)) :=
  charge_idempotent "key-1" (fun x => x) silentSteps emptyStore
    (silentSteps_mem rfl rfl rfl)
    (silentSteps_mem ⟨rfl, rfl, rfl, rfl⟩ ⟨rfl, rfl, rfl, rfl⟩ ⟨rfl, rfl, rfl, rfl⟩)
    ⟨fun _ => rfl, fun _ => rfl, fun _ => rfl, trivial⟩
    (silentSteps_mem rfl rfl rfl)
    (silentSteps_mem (by decide) (by decide) (by decide))
    (silentSteps_mem
      (fun b hb => by cases hb; decide)
      (fun b hb => by cases hb; decide)
      (fun b hb => by cases hb; decide))

/-! ### C2: persistence is not atomic -/

/-- C2, counterexample: on the empty store, with the payments `INSERT` succeeding and
the ledger `INSERT` then failing, the handler answers 500 and the store keeps the new
payment row (it is not the store before the request); a retry with the same key then
adds a second payment row. -/
theorem persist_not_atomic :
    ((charge keyFailEnv (mkRequest "key-1" (orderBody (.num tenThousand))) emptyStore).calls.map
        (fun c => c.ok) = [true, true, false]) ∧
    (charge keyFailEnv (mkRequest "key-1" (orderBody (.num tenThousand))) emptyStore).outcome
      = .sent (resJson 500 persistFailed) ∧
    (charge keyFailEnv (mkRequest "key-1" (orderBody (.num tenThousand)))
      emptyStore).store.payments.length = 1 ∧
    emptyStore.payments.length = 0 ∧
    (charge keyFailEnv (mkRequest "key-1" (orderBody (.num tenThousand)))
      emptyStore).store.idempotency_keys.length = 0 ∧
    (charge laterEnv (mkRequest "key-1" (orderBody (.num tenThousand)))
      (charge keyFailEnv (mkRequest "key-1" (orderBody (.num tenThousand)))
        emptyStore).store).store.payments.length = 2 := by
  refine ⟨rfl, rfl, rfl, rfl, rfl, rfl⟩

/-- C2, as amended: for a request that misses the ledger, with no concurrent request
interfering, if the payments `INSERT` succeeds and the ledger `INSERT` then fails, the
handler answers 500, the ledger is the ledger before the request, and the payments
table is the one before the request followed by the new payment row: nothing is rolled
back.  A retry with the same key whose store calls all succeed adds a second payment
row. -/
theorem persist_keeps_payment (env : Env) (req : Request) (st : Store) (key : String)
    (o a m : JVal) (x : JNum)
    (hk : req.idempotencyKey = some key) (hne : key ≠ "") (hs : env.selectFails = false)
    (hr : env.rival = none) (hsel : selectKey st key = [])
    (hb : destructure req.body = some (o, a, m)) (hx : toNumber env a = some x)
    (hp : env.paymentInsertFails = false) (hf : env.keyInsertFails = true) :
    (charge env req st).outcome = .sent (resJson 500 persistFailed) ∧
    (charge env req st).store.idempotency_keys = st.idempotency_keys ∧
    (charge env req st).store.payments =
      st.payments ++ [buildRow env o a m (chargeStatus x)] ∧
    (∀ (env2 : Env) (x2 : JNum), env2.quiet → toNumber env2 a = some x2 →
      (charge env2 req (charge env req st).store).store.payments =
        st.payments ++ [buildRow env o a m (chargeStatus x),
          buildRow env2 o a m (chargeStatus x2)]) := by
  have hc := charge_miss env req st key o a m x hk hne hs hsel hb hx
  have hst : afterRival env st key = st := by simp [afterRival, hr]
  have hper : persist env st key ⟨.selectKey key, true⟩ (buildRow env o a m (chargeStatus x))
      (buildResp env o a m (chargeStatus x)) =
      { outcome := .sent (resJson 500 persistFailed),
        store := st.addPayment (buildRow env o a m (chargeStatus x)),
        calls := [⟨.selectKey key, true⟩,
          ⟨.insertPayment (buildRow env o a m (chargeStatus x)), true⟩,
          ⟨.insertKey key (stringify (buildResp env o a m (chargeStatus x))), false⟩] } := by
    simp [persist, hp, hf]
  rw [hst, hper] at hc
  rw [hc]
  refine ⟨rfl, rfl, rfl, ?_⟩
  intro env2 x2 hq hx2
  have hsel2 : selectKey (st.addPayment (buildRow env o a m (chargeStatus x))) key = [] := hsel
  have hc2 := charge_miss env2 req _ key o a m x2 hk hne hq.1 hsel2 hb hx2
  rw [afterRival_quiet env2 _ key hq, persist_quiet env2 _ key _ _ _ hq hsel2] at hc2
  rw [hc2]
  simp [Store.addPayment, Store.addKey]

theorem laterEnv_quiet : laterEnv.quiet := ⟨rfl, rfl, rfl, rfl⟩

/-- Witness for C2 as amended: the request of the counterexample, and its retry. -/
theorem persist_keeps_payment_witness :
    (charge keyFailEnv (mkRequest "key-1" (orderBody (.num tenThousand))) emptyStore).outcome
      = .sent (resJson 500 persistFailed) ∧
    (charge keyFailEnv (mkRequest "key-1" (orderBody (.num tenThousand)))
      emptyStore).store.idempotency_keys = emptyStore.idempotency_keys ∧
    (charge keyFailEnv (mkRequest "key-1" (orderBody (.num tenThousand)))
      emptyStore).store.payments =
      emptyStore.payments ++ [buildRow keyFailEnv (.str (utf16 "o-1")) (.num tenThousand) (.str (utf16 "card"))
        (chargeStatus tenThousand)] ∧
    (charge laterEnv (mkRequest "key-1" (orderBody (.num tenThousand)))
      (charge keyFailEnv (mkRequest "key-1" (orderBody (.num tenThousand)))
        emptyStore).store).store.payments =
      emptyStore.payments ++ [buildRow keyFailEnv (.str (utf16 "o-1")) (.num tenThousand) (.str (utf16 "card"))
        (chargeStatus tenThousand),
        buildRow laterEnv (.str (utf16 "o-1")) (.num tenThousand) (.str (utf16 "card"))
          (chargeStatus tenThousand)] :=
  have h := persist_keeps_payment keyFailEnv (mkRequest "key-1" (orderBody (.num tenThousand)))
    emptyStore "key-1" (.str (utf16 "o-1")) (.num tenThousand) (.str (utf16 "card")) tenThousand rfl (by decide)
    rfl rfl rfl rfl rfl rfl rfl
  ⟨h.1, h.2.1, h.2.2.1, h.2.2.2 laterEnv tenThousand laterEnv_quiet rfl⟩

/-! ### C3: a conflict on the ledger insert is answered with 500 -/

/-- C3, counterexample: a concurrent request commits its snapshot for `key-1` after
this request's `SELECT`; the ledger `INSERT` is rejected, the ledger holds the winner's
snapshot, and the handler answers 500, not the replay of that snapshot. -/
theorem conflict_not_replayed :
    selectKey emptyStore "key-1" = [] ∧
    selectKey (charge rivalEnv (mkRequest "key-1" (orderBody (.num tenThousand)))
      emptyStore).store "key-1" = [("key-1", rivalSnapshot)] ∧
    ((charge rivalEnv (mkRequest "key-1" (orderBody (.num tenThousand))) emptyStore).calls.map
        (fun c => c.ok) = [true, true, false]) ∧
    (charge rivalEnv (mkRequest "key-1" (orderBody (.num tenThousand))) emptyStore).outcome
      = .sent (resJson 500 persistFailed) ∧
    (charge rivalEnv (mkRequest "key-1" (orderBody (.num tenThousand))) emptyStore).outcome
      ≠ .sent (replay rivalEnv rivalSnapshot) := by
  refine ⟨rfl, rfl, rfl, rfl, ?_⟩
  intro h
  have h2 := congrArg (fun o => match o with | Outcome.sent r => r.status | Outcome.threw => 0) h
  rw [show (charge rivalEnv (mkRequest "key-1" (orderBody (.num tenThousand))) emptyStore).outcome
      = .sent (resJson 500 persistFailed) from rfl] at h2
  simp only [replay_status] at h2
  exact absurd h2 (by decide)

/-- C3, as amended: for a request whose lookup missed and whose ledger `INSERT` is
rejected because a concurrent request committed a snapshot for the key in between, the
handler answers 500 with `{error: "payment persistence failed"}`.  Its calls are the
`SELECT`, the payments `INSERT` and the rejected ledger `INSERT`: it does not read the
ledger again.  The ledger keeps the winner's snapshot for the key. -/
theorem conflict_answered_500 (env : Env) (req : Request) (st : Store) (key : String) (snap : Text)
    (o a m : JVal) (x : JNum)
    (hk : req.idempotencyKey = some key) (hne : key ≠ "") (hs : env.selectFails = false)
    (hsel : selectKey st key = []) (hb : destructure req.body = some (o, a, m))
    (hx : toNumber env a = some x) (hr : env.rival = some snap)
    (hp : env.paymentInsertFails = false) :
    (charge env req st).outcome = .sent (resJson 500 persistFailed) ∧
    (charge env req st).calls =
      [⟨.selectKey key, true⟩, ⟨.insertPayment (buildRow env o a m (chargeStatus x)), true⟩,
        ⟨.insertKey key (stringify (buildResp env o a m (chargeStatus x))), false⟩] ∧
    ((charge env req st).calls.filter (fun c => c.query.isSelect)).length = 1 ∧
    selectKey (charge env req st).store key = [(key, snap)] := by
  have hc := charge_miss env req st key o a m x hk hne hs hsel hb hx
  have hst : afterRival env st key = st.addKey key snap := by simp [afterRival, hr]
  have hpres : keyPresent (st.addKey key snap) key = true := by
    simp [keyPresent, Store.addKey]
  have hsel2 : selectKey (st.addKey key snap) key = [(key, snap)] := by
    rw [selectKey_addKey, hsel]; rfl
  rw [hst] at hc
  rcases persist_cases env (st.addKey key snap) key ⟨.selectKey key, true⟩
      (buildRow env o a m (chargeStatus x)) (buildResp env o a m (chargeStatus x)) with
    ⟨h1, _⟩ | ⟨_, _, h⟩ | ⟨_, h2, _, _⟩
  · rw [hp] at h1; cases h1
  · rw [hc, h]; exact ⟨rfl, rfl, rfl, hsel2⟩
  · rw [hpres] at h2; cases h2

/-- Witness for C3 as amended: the request of the counterexample. -/
theorem conflict_answered_500_witness :
    (charge rivalEnv (mkRequest "key-1" (orderBody (.num tenThousand))) emptyStore).outcome
      = .sent (resJson 500 persistFailed) ∧
    (charge rivalEnv (mkRequest "key-1" (orderBody (.num tenThousand))) emptyStore).calls =
      [⟨.selectKey "key-1", true⟩,
        ⟨.insertPayment (buildRow rivalEnv (.str (utf16 "o-1")) (.num tenThousand) (.str (utf16 "card"))
          (chargeStatus tenThousand)), true⟩,
        ⟨.insertKey "key-1" (stringify (buildResp rivalEnv (.str (utf16 "o-1")) (.num tenThousand)
          (.str (utf16 "card")) (chargeStatus tenThousand))), false⟩] ∧
    ((charge rivalEnv (mkRequest "key-1" (orderBody (.num tenThousand))) emptyStore).calls.filter
      (fun c => c.query.isSelect)).length = 1 ∧
    selectKey (charge rivalEnv (mkRequest "key-1" (orderBody (.num tenThousand)))
      emptyStore).store "key-1" = [("key-1", rivalSnapshot)] :=
  conflict_answered_500 rivalEnv (mkRequest "key-1" (orderBody (.num tenThousand))) emptyStore
    "key-1" rivalSnapshot (.str (utf16 "o-1")) (.num tenThousand) (.str (utf16 "card")) tenThousand rfl
    (by decide) rfl rfl rfl rfl rfl rfl

/-! ### C4: the decision threshold -/

theorem chargeStatus_failed (x : JNum) : chargeStatus x = "FAILED" ↔ x.exceeds 10000 := by
  rw [← gtNat_iff_exceeds]
  unfold chargeStatus
  cases x.gtNat 10000
  · simp only [Bool.false_eq_true, if_false, iff_false]; decide
  · simp

theorem chargeStatus_success (x : JNum) : chargeStatus x = "SUCCESS" ↔ ¬ x.exceeds 10000 := by
  rw [← gtNat_iff_exceeds]
  unfold chargeStatus
  cases x.gtNat 10000
  · simp
  · simp only [if_true, not_true_eq_false, iff_false]; decide

theorem destructure_obj (ps : List (Text × JVal)) :
    destructure (some (.obj ps)) =
      some (getProp ps "order_id", getProp ps "amount", getProp ps "method") := rfl

/-- What a request that misses the ledger and carries a numeric amount leads to. -/
theorem charge_numeric (env : Env) (req : Request) (st : Store) (key : String)
    (ps : List (Text × JVal)) (a : JNum)
    (hk : req.idempotencyKey = some key) (hne : key ≠ "") (hs : env.selectFails = false)
    (hsel : selectKey st key = []) (hbody : req.body = some (.obj ps))
    (ha : getProp ps "amount" = .num a) :
    charge env req st =
      persist env (afterRival env st key) key ⟨.selectKey key, true⟩
        (buildRow env (getProp ps "order_id") (.num a) (getProp ps "method") (chargeStatus a))
        (buildResp env (getProp ps "order_id") (.num a) (getProp ps "method")
          (chargeStatus a)) := by
  have hb : destructure req.body =
      some (getProp ps "order_id", .num a, getProp ps "method") := by
    rw [hbody, destructure_obj, ha]
  exact charge_miss env req st key _ _ _ a hk hne hs hsel hb rfl

theorem charge_numeric_facts (env : Env) (req : Request) (st : Store) (key : String)
    (ps : List (Text × JVal)) (a : JNum)
    (hk : req.idempotencyKey = some key) (hne : key ≠ "") (hs : env.selectFails = false)
    (hsel : selectKey st key = []) (hbody : req.body = some (.obj ps))
    (ha : getProp ps "amount" = .num a) :
    (∀ r, (charge env req st).outcome = .sent r →
      r = resJson 500 persistFailed ∨
      r = resJson 200 (buildResp env (getProp ps "order_id") (.num a) (getProp ps "method")
        (chargeStatus a))) ∧
    (∀ c ∈ (charge env req st).calls, ∀ row, c.query = .insertPayment row →
      row.status = chargeStatus a) ∧
    (∀ row ∈ (charge env req st).store.payments,
      row ∈ st.payments ∨ row.status = chargeStatus a) := by
  have hc := charge_numeric env req st key ps a hk hne hs hsel hbody ha
  obtain ⟨extra, _, _, hpay⟩ := afterRival_keys env st key
  rcases persist_cases env (afterRival env st key) key ⟨.selectKey key, true⟩
      (buildRow env (getProp ps "order_id") (.num a) (getProp ps "method") (chargeStatus a))
      (buildResp env (getProp ps "order_id") (.num a) (getProp ps "method")
        (chargeStatus a)) with
    ⟨_, hp⟩ | ⟨_, _, hp⟩ | ⟨_, _, _, hp⟩
  all_goals
    rw [hc, hp]
    refine ⟨?_, ?_, ?_⟩
    · intro r hr
      cases hr
      first | exact Or.inl rfl | exact Or.inr rfl
    · intro c hcm row hq
      simp only [List.mem_cons, List.mem_singleton, List.not_mem_nil, or_false] at hcm
      rcases hcm with rfl | rfl | rfl <;> cases hq
      all_goals rfl
    · intro row hrow
      simp only [Store.addPayment, Store.addKey, hpay, List.mem_append, List.mem_singleton]
        at hrow
      first
        | exact Or.inl hrow
        | (rcases hrow with h | h
           · exact Or.inl h
           · exact Or.inr (by rw [h]; rfl))

/-- C4 (decision threshold): for a request that misses the ledger and carries a numeric
amount `a`, the status is a function of `a` alone: it is FAILED exactly when `a`
exceeds 10000 and SUCCESS exactly when it does not.  A response the handler sends is
either the persistence failure or 200 with the body built with that status; every
payments row it inserts, and every payments row new in the store, carries that status.
In particular 10000 gives SUCCESS and 10000.01 gives FAILED. -/
theorem charge_status_threshold (env : Env) (req : Request) (st : Store) (key : String)
    (ps : List (Text × JVal)) (a : JNum)
    (hk : req.idempotencyKey = some key) (hne : key ≠ "") (hs : env.selectFails = false)
    (hsel : selectKey st key = []) (hbody : req.body = some (.obj ps))
    (ha : getProp ps "amount" = .num a) :
    (chargeStatus a = "FAILED" ↔ a.exceeds 10000) ∧
    (chargeStatus a = "SUCCESS" ↔ ¬ a.exceeds 10000) ∧
    (∀ r, (charge env req st).outcome = .sent r →
      r = resJson 500 persistFailed ∨
      r = resJson 200 (buildResp env (getProp ps "order_id") (.num a) (getProp ps "method")
        (chargeStatus a))) ∧
    (∀ c ∈ (charge env req st).calls, ∀ row, c.query = .insertPayment row →
      row.status = chargeStatus a) ∧
    (∀ row ∈ (charge env req st).store.payments,
      row ∈ st.payments ∨ row.status = chargeStatus a) ∧
    chargeStatus tenThousand = "SUCCESS" ∧ chargeStatus tenThousandAndCent = "FAILED" :=
  ⟨chargeStatus_failed a, chargeStatus_success a,
    (charge_numeric_facts env req st key ps a hk hne hs hsel hbody ha).1,
    (charge_numeric_facts env req st key ps a hk hne hs hsel hbody ha).2.1,
    (charge_numeric_facts env req st key ps a hk hne hs hsel hbody ha).2.2, rfl, rfl⟩

/-- Witness for C4: amount 10000.01 with key `key-1` on the empty store. -/
theorem charge_status_threshold_witness :
    (chargeStatus tenThousandAndCent = "FAILED" ↔ tenThousandAndCent.exceeds 10000) ∧
    (chargeStatus tenThousandAndCent = "SUCCESS" ↔ ¬ tenThousandAndCent.exceeds 10000) ∧
    (∀ r, (charge sampleEnv (mkRequest "key-1" (orderBody (.num tenThousandAndCent)))
        emptyStore).outcome = .sent r →
      r = resJson 500 persistFailed ∨
      r = resJson 200 (buildResp sampleEnv (.str (utf16 "o-1")) (.num tenThousandAndCent) (.str (utf16 "card"))
        (chargeStatus tenThousandAndCent))) ∧
    (∀ c ∈ (charge sampleEnv (mkRequest "key-1" (orderBody (.num tenThousandAndCent)))
        emptyStore).calls, ∀ row, c.query = .insertPayment row →
      row.status = chargeStatus tenThousandAndCent) ∧
    (∀ row ∈ (charge sampleEnv (mkRequest "key-1" (orderBody (.num tenThousandAndCent)))
        emptyStore).store.payments,
      row ∈ emptyStore.payments ∨ row.status = chargeStatus tenThousandAndCent) ∧
    chargeStatus tenThousand = "SUCCESS" ∧ chargeStatus tenThousandAndCent = "FAILED" :=
  charge_status_threshold sampleEnv (mkRequest "key-1" (orderBody (.num tenThousandAndCent)))
    emptyStore "key-1" _ tenThousandAndCent rfl (by decide) rfl rfl rfl rfl

/-! ### C5: an amount that is negative or zero is not rejected -/

/-- C5, counterexample: amount 0 and amount -5 are answered 200 with status SUCCESS, and
a payment row and a ledger row are created. -/
theorem invalid_amount_accepted :
    (charge sampleEnv (mkRequest "key-1" (orderBody (.num zero))) emptyStore).outcome =
      .sent ⟨200, utf16 "\x7b\"payment_id\":1700000000000,\"order_id\":\"o-1\",\"amount\":0,\"method\":\"card\",\"status\":\"SUCCESS\",\"reference\":\"3f2b8c1e-7a4d-4e1b-9c57-0d6a5e8f1b22\",\"created_at\":\"2023-11-14T22:13:20.000Z\"\x7d"⟩ ∧
    (charge sampleEnv (mkRequest "key-1" (orderBody (.num zero))) emptyStore).store.payments.map
      (fun row => row.status) = ["SUCCESS"] ∧
    (charge sampleEnv (mkRequest "key-1" (orderBody (.num zero)))
      emptyStore).store.idempotency_keys.length = 1 ∧
    (charge sampleEnv (mkRequest "key-1" (orderBody (.num minusFive))) emptyStore).outcome =
      .sent ⟨200, utf16 "\x7b\"payment_id\":1700000000000,\"order_id\":\"o-1\",\"amount\":-5,\"method\":\"card\",\"status\":\"SUCCESS\",\"reference\":\"3f2b8c1e-7a4d-4e1b-9c57-0d6a5e8f1b22\",\"created_at\":\"2023-11-14T22:13:20.000Z\"\x7d"⟩ ∧
    (charge sampleEnv (mkRequest "key-1" (orderBody (.num minusFive)))
      emptyStore).store.payments.map (fun row => row.status) = ["SUCCESS"] ∧
    (charge sampleEnv (mkRequest "key-1" (orderBody (.num minusFive)))
      emptyStore).store.idempotency_keys.length = 1 := by
  refine ⟨?_, rfl, rfl, ?_, rfl, rfl⟩ <;> decide

/-- A Number that is negative or zero does not exceed 10000. -/
theorem not_exceeds_of_nonPositive (x : JNum) (h : x.nonPositive) : ¬ x.exceeds 10000 := by
  cases x with
  | nan => exact fun h2 => h2
  | inf neg =>
    intro h2
    simp only [JNum.nonPositive] at h
    simp only [JNum.exceeds] at h2
    rw [h] at h2
    cases h2
  | fin neg ds n =>
    intro h2
    simp only [JNum.nonPositive] at h
    simp only [JNum.exceeds] at h2
    have : ((10000 : ℕ) : ℚ) > 0 := by norm_num
    linarith

theorem chargeStatus_of_nonPositive (x : JNum) (h : x.nonPositive) :
    chargeStatus x = "SUCCESS" :=
  (chargeStatus_success x).mpr (not_exceeds_of_nonPositive x h)

/-- C5, as amended: a request that misses the ledger and whose amount is a number that
is negative or zero is not rejected: the handler decides SUCCESS, it never answers with
a 4xx status, and when no store call fails it answers 200 with the body built with
status SUCCESS and adds one payment row and one ledger row. -/
theorem invalid_amount_not_rejected (env : Env) (req : Request) (st : Store) (key : String)
    (o m : JVal) (x : JNum)
    (hk : req.idempotencyKey = some key) (hne : key ≠ "") (hsel : selectKey st key = [])
    (hb : destructure req.body = some (o, .num x, m)) (hx : x.nonPositive) :
    chargeStatus x = "SUCCESS" ∧
    (∀ r, (charge env req st).outcome = .sent r → r.status = 200 ∨ r.status = 500) ∧
    (env.quiet →
      (charge env req st).outcome =
        .sent (resJson 200 (buildResp env o (.num x) m "SUCCESS")) ∧
      (charge env req st).store.payments =
        st.payments ++ [buildRow env o (.num x) m "SUCCESS"] ∧
      (charge env req st).store.idempotency_keys = st.idempotency_keys ++
        [(key, stringify (buildResp env o (.num x) m "SUCCESS"))]) := by
  have hst := chargeStatus_of_nonPositive x hx
  refine ⟨hst, fun r hr => charge_status_of_key env req st key hk hne r hr, ?_⟩
  intro hq
  have hc := charge_miss env req st key o (.num x) m x hk hne hq.1 hsel hb rfl
  rw [afterRival_quiet env st key hq, persist_quiet env st key _ _ _ hq hsel, hst] at hc
  rw [hc]
  exact ⟨rfl, rfl, rfl⟩

theorem sampleEnv_quiet : sampleEnv.quiet := ⟨rfl, rfl, rfl, rfl⟩

theorem zero_nonPositive : zero.nonPositive := by
  simp [JNum.nonPositive, zero, digitsVal]

/-- Witness for C5 as amended: amount 0 with key `key-1` on the empty store, every
store call succeeding. -/
theorem invalid_amount_not_rejected_witness :
    chargeStatus zero = "SUCCESS" ∧
    (∀ r, (charge sampleEnv (mkRequest "key-1" (orderBody (.num zero))) emptyStore).outcome
        = .sent r → r.status = 200 ∨ r.status = 500) ∧
    (charge sampleEnv (mkRequest "key-1" (orderBody (.num zero))) emptyStore).outcome =
      .sent (resJson 200 (buildResp sampleEnv (.str (utf16 "o-1")) (.num zero)
        (.str (utf16 "card")) "SUCCESS")) ∧
    (charge sampleEnv (mkRequest "key-1" (orderBody (.num zero))) emptyStore).store.payments =
      emptyStore.payments ++
        [buildRow sampleEnv (.str (utf16 "o-1")) (.num zero) (.str (utf16 "card")) "SUCCESS"] ∧
    (charge sampleEnv (mkRequest "key-1" (orderBody (.num zero)))
      emptyStore).store.idempotency_keys = emptyStore.idempotency_keys ++
        [("key-1", stringify (buildResp sampleEnv (.str (utf16 "o-1")) (.num zero)
          (.str (utf16 "card")) "SUCCESS"))] :=
  have h := invalid_amount_not_rejected sampleEnv (mkRequest "key-1" (orderBody (.num zero)))
    emptyStore "key-1" (.str (utf16 "o-1")) (.str (utf16 "card")) zero rfl (by decide) rfl rfl
    zero_nonPositive
  ⟨h.1, h.2.1, h.2.2 sampleEnv_quiet⟩

/-! ### C6: a missing key -/

theorem keyRequired_bytes :
    resJson 400 keyRequired =
      ⟨400, utf16 "\x7b\"error\":\"Idempotency-Key header required\"\x7d"⟩ := by
  decide

theorem persistFailed_bytes :
    resJson 500 persistFailed =
      ⟨500, utf16 "\x7b\"error\":\"payment persistence failed\"\x7d"⟩ := by
  decide

/-- C6 (missing key): a request without an `Idempotency-Key` header, or with an empty
one, is answered 400 with `{"error":"Idempotency-Key header required"}`; no store call is
issued and the store is unchanged.  A request with a non-empty key is never answered with
that response. -/
theorem missing_key_rejected (env : Env) (req : Request) (st : Store) :
    ((req.idempotencyKey = none ∨ req.idempotencyKey = some "") →
      (charge env req st).outcome =
        .sent ⟨400, utf16 "\x7b\"error\":\"Idempotency-Key header required\"\x7d"⟩ ∧
      (charge env req st).calls = [] ∧ (charge env req st).store = st) ∧
    (∀ key, req.idempotencyKey = some key → key ≠ "" →
      (charge env req st).outcome ≠
        .sent ⟨400, utf16 "\x7b\"error\":\"Idempotency-Key header required\"\x7d"⟩) := by
  constructor
  · intro h
    rw [charge_no_key env req st h, keyRequired_bytes]
    exact ⟨rfl, rfl, rfl⟩
  · intro key hk hne h
    rcases charge_status_of_key env req st key hk hne _ h with h2 | h2 <;> cases h2

/-- Witness for C6: a request with no header, and one with key `key-1`. -/
theorem missing_key_rejected_witness :
    ((charge sampleEnv ⟨none, some (orderBody (.num tenThousand))⟩ emptyStore).outcome =
        .sent ⟨400, utf16 "\x7b\"error\":\"Idempotency-Key header required\"\x7d"⟩ ∧
      (charge sampleEnv ⟨none, some (orderBody (.num tenThousand))⟩ emptyStore).calls = [] ∧
      (charge sampleEnv ⟨none, some (orderBody (.num tenThousand))⟩ emptyStore).store
        = emptyStore) ∧
    (charge sampleEnv (mkRequest "key-1" (orderBody (.num tenThousand))) emptyStore).outcome ≠
      .sent ⟨400, utf16 "\x7b\"error\":\"Idempotency-Key header required\"\x7d"⟩ :=
  ⟨(missing_key_rejected sampleEnv ⟨none, some (orderBody (.num tenThousand))⟩ emptyStore).1
      (Or.inl rfl),
    (missing_key_rejected sampleEnv (mkRequest "key-1" (orderBody (.num tenThousand)))
      emptyStore).2 "key-1" rfl (by decide)⟩

/-! ### C7: a persistence failure is answered with a fixed 500 -/

/-- A request with a key that misses the ledger either throws before the persist block
or runs the persist block. -/
theorem charge_miss_cases (env : Env) (req : Request) (st : Store) (key : String)
    (hk : req.idempotencyKey = some key) (hne : key ≠ "") (hs : env.selectFails = false)
    (hsel : selectKey st key = []) :
    charge env req st =
      { outcome := .threw, store := st, calls := [⟨.selectKey key, true⟩] } ∨
    ∃ o a m x, destructure req.body = some (o, a, m) ∧ toNumber env a = some x ∧
      charge env req st =
        persist env (afterRival env st key) key ⟨.selectKey key, true⟩
          (buildRow env o a m (chargeStatus x)) (buildResp env o a m (chargeStatus x)) := by
  cases hb : destructure req.body with
  | none => left; exact charge_miss_throws env req st key hk hne hs hsel (Or.inl hb)
  | some t =>
    obtain ⟨o, a, m⟩ := t
    cases hx : toNumber env a with
    | none =>
      left; exact charge_miss_throws env req st key hk hne hs hsel (Or.inr ⟨o, a, m, hb, hx⟩)
    | some x =>
      right; exact ⟨o, a, m, x, rfl, hx, charge_miss env req st key o a m x hk hne hs hsel hb hx⟩

theorem persist_500_iff (env : Env) (req : Request) (st : Store) (key : String)
    (hk : req.idempotencyKey = some key) (hne : key ≠ "") (hs : env.selectFails = false)
    (hsel : selectKey st key = []) :
    ((charge env req st).outcome = .sent (resJson 500 persistFailed) ↔
      ∃ c ∈ (charge env req st).calls, c.query.isInsert = true ∧ c.ok = false) ∧
    (((∃ row, (⟨.insertPayment row, true⟩ : Call) ∈ (charge env req st).calls) ∧
      (∃ k snap, (⟨.insertKey k snap, true⟩ : Call) ∈ (charge env req st).calls)) →
      ∃ o a m x, destructure req.body = some (o, a, m) ∧ toNumber env a = some x ∧
        (charge env req st).outcome =
          .sent (resJson 200 (buildResp env o a m (chargeStatus x)))) := by
  rcases charge_miss_cases env req st key hk hne hs hsel with hc | ⟨o, a, m, x, hb, hx, hc⟩
  · rw [hc]
    constructor
    · constructor
      · intro h; cases h
      · rintro ⟨c, hcm, hi, _⟩
        simp only [List.mem_singleton] at hcm
        subst hcm
        cases hi
    · rintro ⟨⟨row, h⟩, _⟩
      simp at h
  · rcases persist_cases env (afterRival env st key) key ⟨.selectKey key, true⟩
        (buildRow env o a m (chargeStatus x)) (buildResp env o a m (chargeStatus x)) with
      ⟨_, hp⟩ | ⟨_, _, hp⟩ | ⟨_, _, _, hp⟩
    · rw [hc, hp]
      constructor
      · constructor
        · intro _
          exact ⟨⟨.insertPayment (buildRow env o a m (chargeStatus x)), false⟩, by simp, rfl, rfl⟩
        · intro _; rfl
      · rintro ⟨⟨row, h⟩, _⟩
        simp at h
    · rw [hc, hp]
      constructor
      · constructor
        · intro _
          exact ⟨⟨.insertKey key (stringify (buildResp env o a m (chargeStatus x))), false⟩,
            by simp, rfl, rfl⟩
        · intro _; rfl
      · rintro ⟨_, ⟨k, snap, h⟩⟩
        simp at h
    · rw [hc, hp]
      constructor
      · constructor
        · intro h
          have h2 := congrArg Response.status (Outcome.sent.inj h)
          simp [resJson] at h2
        · rintro ⟨c, hcm, hi, hok⟩
          simp only [List.mem_cons, List.mem_singleton, List.not_mem_nil, or_false] at hcm
          rcases hcm with rfl | rfl | rfl
          · cases hi
          · cases hok
          · cases hok
      · intro _
        exact ⟨o, a, m, x, hb, hx, rfl⟩

/-- C7 (persistence failure): for a request with a key that misses the ledger, the
response is 500 with `{"error":"payment persistence failed"}` exactly when one of the
two `INSERT`s was issued and threw; when both were issued and returned, the response is
200 with the body built for this request. -/
theorem persist_failure_500 (env : Env) (req : Request) (st : Store) (key : String)
    (hk : req.idempotencyKey = some key) (hne : key ≠ "") (hs : env.selectFails = false)
    (hsel : selectKey st key = []) :
    ((charge env req st).outcome =
        .sent ⟨500, utf16 "\x7b\"error\":\"payment persistence failed\"\x7d"⟩ ↔
      ∃ c ∈ (charge env req st).calls, c.query.isInsert = true ∧ c.ok = false) ∧
    (((∃ row, (⟨.insertPayment row, true⟩ : Call) ∈ (charge env req st).calls) ∧
      (∃ k snap, (⟨.insertKey k snap, true⟩ : Call) ∈ (charge env req st).calls)) →
      ∃ o a m x, destructure req.body = some (o, a, m) ∧ toNumber env a = some x ∧
        (charge env req st).outcome =
          .sent (resJson 200 (buildResp env o a m (chargeStatus x)))) := by
  rw [← persistFailed_bytes]
  exact persist_500_iff env req st key hk hne hs hsel

/-- Witness for C7: with the ledger `INSERT` failing the answer is the fixed 500; with
both `INSERT`s succeeding it is 200 with the new body. -/
theorem persist_failure_500_witness :
    (charge keyFailEnv (mkRequest "key-1" (orderBody (.num tenThousand))) emptyStore).outcome =
      .sent ⟨500, utf16 "\x7b\"error\":\"payment persistence failed\"\x7d"⟩ ∧
    (∃ o a m x, destructure (mkRequest "key-1" (orderBody (.num tenThousand))).body
        = some (o, a, m) ∧ toNumber sampleEnv a = some x ∧
      (charge sampleEnv (mkRequest "key-1" (orderBody (.num tenThousand))) emptyStore).outcome =
        .sent (resJson 200 (buildResp sampleEnv o a m (chargeStatus x)))) :=
  ⟨(persist_failure_500 keyFailEnv (mkRequest "key-1" (orderBody (.num tenThousand))) emptyStore
      "key-1" rfl (by decide) rfl rfl).1.2
      ⟨⟨.insertKey "key-1" (stringify (buildResp keyFailEnv (.str (utf16 "o-1")) (.num tenThousand)
        (.str (utf16 "card")) (chargeStatus tenThousand))), false⟩,
        List.mem_cons_of_mem _ (List.mem_cons_of_mem _ (List.mem_singleton.mpr rfl)), rfl, rfl⟩,
    (persist_failure_500 sampleEnv (mkRequest "key-1" (orderBody (.num tenThousand))) emptyStore
      "key-1" rfl (by decide) rfl rfl).2
      ⟨⟨buildRow sampleEnv (.str (utf16 "o-1")) (.num tenThousand) (.str (utf16 "card"))
          (chargeStatus tenThousand),
          List.mem_cons_of_mem _ (List.mem_cons_self _ _)⟩,
        ⟨"key-1", stringify (buildResp sampleEnv (.str (utf16 "o-1")) (.num tenThousand) (.str (utf16 "card"))
          (chargeStatus tenThousand)),
          List.mem_cons_of_mem _ (List.mem_cons_of_mem _ (List.mem_singleton.mpr rfl))⟩⟩⟩

/-! ### C8: a snapshot that does not parse -/

/-- C8 (malformed snapshot): for a key present in the ledger the handler answers 200;
the body is the stored snapshot itself when `JSON.parse` throws on it and the parsed
value when it does not.  The run does not throw, and the response is the same for every
request with that key on the same platform, whatever its body and the rest of the
environment. -/
theorem malformed_snapshot_degrades (env : Env) (req : Request) (st : Store) (key : String)
    (row : String × Text) (rest : List (String × Text))
    (hk : req.idempotencyKey = some key) (hne : key ≠ "") (hs : env.selectFails = false)
    (hsel : selectKey st key = row :: rest) :
    (parse env.round row.2 = none →
      (charge env req st).outcome = .sent (resJson 200 (.str row.2))) ∧
    (∀ v, parse env.round row.2 = some v →
      (charge env req st).outcome = .sent (resJson 200 v)) ∧
    (∃ r, (charge env req st).outcome = .sent r ∧ r.status = 200) ∧
    (∀ (env2 : Env) (req2 : Request), req2.idempotencyKey = some key →
      env2.selectFails = false → env2.round = env.round →
      (charge env2 req2 st).outcome = (charge env req st).outcome) := by
  rw [charge_hit env req st key row rest hk hne hs hsel]
  refine ⟨?_, ?_, ⟨_, rfl, replay_status _ _⟩, ?_⟩
  · intro h; simp [replay, h]
  · intro v h; simp [replay, h]
  · intro env2 req2 hk2 hs2 hr2
    rw [charge_hit env2 req2 st key row rest hk2 hne hs2 hsel, replay_congr env2 env _ hr2]

/-- Witness for C8: a snapshot that is not JSON is sent back as a JSON string, for two
different bodies; a snapshot written by the handler is sent back as its value; a
snapshot with a repeated key, one with a lone surrogate escape and one with a number
beyond the doubles are sent back as `JSON.parse` reads them. -/
theorem malformed_snapshot_degrades_witness :
    (charge sampleEnv (mkRequest "key-1" (orderBody (.num tenThousand))) corruptStore).outcome =
      .sent (resJson 200 (.str (utf16 "<html>not json</html>"))) ∧
    (charge laterEnv (mkRequest "key-1" bodyNoAmount) corruptStore).outcome =
      (charge sampleEnv (mkRequest "key-1" (orderBody (.num tenThousand))) corruptStore).outcome ∧
    (charge sampleEnv (mkRequest "key-1" (orderBody (.num zero))) replayStore).outcome =
      .sent (resJson 200
        (norm (buildResp laterEnv (.str (utf16 "o-1")) (.num tenThousand) (.str (utf16 "card"))
          "SUCCESS"))) ∧
    (charge sampleEnv (mkRequest "key-1" (orderBody (.num zero))) repeatedKeyStore).outcome =
      .sent ⟨200, utf16 "\x7b\"a\":3,\"b\":2\x7d"⟩ ∧
    (charge sampleEnv (mkRequest "key-1" (orderBody (.num zero))) surrogateStore).outcome =
      .sent ⟨200, utf16 "\"\\ud800\""⟩ ∧
    (charge overflowEnv (mkRequest "key-1" (orderBody (.num zero))) overflowStore).outcome =
      .sent ⟨200, utf16 "null"⟩ :=
  ⟨(malformed_snapshot_degrades sampleEnv (mkRequest "key-1" (orderBody (.num tenThousand)))
      corruptStore "key-1" ("key-1", utf16 "<html>not json</html>") [] rfl (by decide) rfl
      rfl).1 rfl,
    (malformed_snapshot_degrades sampleEnv (mkRequest "key-1" (orderBody (.num tenThousand)))
      corruptStore "key-1" ("key-1", utf16 "<html>not json</html>") [] rfl (by decide) rfl
      rfl).2.2.2 laterEnv (mkRequest "key-1" bodyNoAmount) rfl rfl rfl,
    (malformed_snapshot_degrades sampleEnv (mkRequest "key-1" (orderBody (.num zero)))
      replayStore "key-1" ("key-1", rivalSnapshot) [] rfl (by decide) rfl rfl).2.1
      (norm (buildResp laterEnv (.str (utf16 "o-1")) (.num tenThousand) (.str (utf16 "card"))
        "SUCCESS"))
      (parse_render _ _ (by decide)),
    (malformed_snapshot_degrades sampleEnv (mkRequest "key-1" (orderBody (.num zero)))
      repeatedKeyStore "key-1" ("key-1", repeatedKeySnapshot) [] rfl (by decide) rfl rfl).2.1
      (.obj [(utf16 "a", .num (.fin false [3] 1)), (utf16 "b", .num (.fin false [2] 1))]) rfl,
    (malformed_snapshot_degrades sampleEnv (mkRequest "key-1" (orderBody (.num zero)))
      surrogateStore "key-1" ("key-1", surrogateSnapshot) [] rfl (by decide) rfl rfl).2.1
      (.str [55296]) rfl,
    (malformed_snapshot_degrades overflowEnv (mkRequest "key-1" (orderBody (.num zero)))
      overflowStore "key-1" ("key-1", utf16 "1e400") [] rfl (by decide) rfl rfl).2.1
      (.num (.inf false)) rfl⟩

/-! ### C9: two keys, and the payment identifier -/

/-- C9, counterexample: two requests with different keys and the same body arrive in
the same millisecond.  When the store accepts both payments `INSERT`s, the two payment
rows carry the same `payment_id`; when it rejects the second one, only one payment row
and one ledger row exist.  Either way there are not two payment rows with different
identifiers. -/
theorem payment_id_not_unique :
    sampleEnv.now = sameClockEnv.now ∧
    ((charge sameClockEnv (mkRequest "key-2" (orderBody (.num tenThousand)))
      (charge sampleEnv (mkRequest "key-1" (orderBody (.num tenThousand)))
        emptyStore).store).store.payments.map (fun row => row.payment_id) =
      [1700000000000, 1700000000000]) ∧
    ((charge sameClockEnv (mkRequest "key-2" (orderBody (.num tenThousand)))
      (charge sampleEnv (mkRequest "key-1" (orderBody (.num tenThousand)))
        emptyStore).store).store.idempotency_keys.map (fun e => e.1) = ["key-1", "key-2"]) ∧
    ((charge sameClockRejectEnv (mkRequest "key-2" (orderBody (.num tenThousand)))
      (charge sampleEnv (mkRequest "key-1" (orderBody (.num tenThousand)))
        emptyStore).store).store.payments.map (fun row => row.payment_id) =
      [1700000000000]) ∧
    ((charge sameClockRejectEnv (mkRequest "key-2" (orderBody (.num tenThousand)))
      (charge sampleEnv (mkRequest "key-1" (orderBody (.num tenThousand)))
        emptyStore).store).store.idempotency_keys.map (fun e => e.1) = ["key-1"]) := by
  refine ⟨rfl, rfl, rfl, rfl, rfl⟩

/-- C9, as amended: for two distinct keys absent from the ledger and one body, handling
a request with the first key and then one with the second, every store call succeeding,
adds two payment rows and two ledger rows.  The `payment_id` of each row is the value
of `Date.now()` during its request, so the two identifiers differ exactly when the
clock returned different values for the two requests. -/
theorem two_keys_two_records (env1 env2 : Env) (req1 req2 : Request) (st : Store)
    (k1 k2 : String) (o a m : JVal) (x1 x2 : JNum)
    (hk1 : req1.idempotencyKey = some k1) (hk2 : req2.idempotencyKey = some k2)
    (hne1 : k1 ≠ "") (hne2 : k2 ≠ "") (hdiff : k1 ≠ k2)
    (hb1 : destructure req1.body = some (o, a, m)) (hb2 : req2.body = req1.body)
    (hx1 : toNumber env1 a = some x1) (hx2 : toNumber env2 a = some x2)
    (hsel1 : selectKey st k1 = []) (hsel2 : selectKey st k2 = [])
    (hq1 : env1.quiet) (hq2 : env2.quiet) :
    (charge env2 req2 (charge env1 req1 st).store).store.payments =
      st.payments ++ [buildRow env1 o a m (chargeStatus x1), buildRow env2 o a m (chargeStatus x2)] ∧
    (charge env2 req2 (charge env1 req1 st).store).store.idempotency_keys =
      st.idempotency_keys ++ [(k1, stringify (buildResp env1 o a m (chargeStatus x1))),
        (k2, stringify (buildResp env2 o a m (chargeStatus x2)))] ∧
    (buildRow env1 o a m (chargeStatus x1)).payment_id = env1.now ∧
    (buildRow env2 o a m (chargeStatus x2)).payment_id = env2.now ∧
    ((buildRow env1 o a m (chargeStatus x1)).payment_id ≠
        (buildRow env2 o a m (chargeStatus x2)).payment_id ↔ env1.now ≠ env2.now) := by
  have hc1 := charge_miss env1 req1 st k1 o a m x1 hk1 hne1 hq1.1 hsel1 hb1 hx1
  rw [afterRival_quiet env1 st k1 hq1, persist_quiet env1 st k1 _ _ _ hq1 hsel1] at hc1
  have hsel2b : selectKey ((st.addPayment (buildRow env1 o a m (chargeStatus x1))).addKey k1
      (stringify (buildResp env1 o a m (chargeStatus x1)))) k2 = [] := by
    rw [selectKey_addKey_ne _ _ _ _ hdiff]; exact hsel2
  have hc2 := charge_miss env2 req2 _ k2 o a m x2 hk2 hne2 hq2.1 hsel2b (hb2 ▸ hb1) hx2
  rw [afterRival_quiet env2 _ k2 hq2, persist_quiet env2 _ k2 _ _ _ hq2 hsel2b] at hc2
  rw [hc1, hc2]
  refine ⟨?_, ?_, rfl, rfl, Iff.rfl⟩
  · simp [Store.addPayment, Store.addKey]
  · simp [Store.addPayment, Store.addKey]

/-- Witness for C9 as amended: keys `key-1` and `key-2`, the second request half a
second after the first. -/
theorem two_keys_two_records_witness :
    (charge laterEnv (mkRequest "key-2" (orderBody (.num tenThousand)))
      (charge sampleEnv (mkRequest "key-1" (orderBody (.num tenThousand)))
        emptyStore).store).store.payments =
      emptyStore.payments ++
        [buildRow sampleEnv (.str (utf16 "o-1")) (.num tenThousand) (.str (utf16 "card"))
          (chargeStatus tenThousand),
         buildRow laterEnv (.str (utf16 "o-1")) (.num tenThousand) (.str (utf16 "card"))
          (chargeStatus tenThousand)] ∧
    (charge laterEnv (mkRequest "key-2" (orderBody (.num tenThousand)))
      (charge sampleEnv (mkRequest "key-1" (orderBody (.num tenThousand)))
        emptyStore).store).store.idempotency_keys =
      emptyStore.idempotency_keys ++
        [("key-1", stringify (buildResp sampleEnv (.str (utf16 "o-1")) (.num tenThousand) (.str (utf16 "card"))
          (chargeStatus tenThousand))),
         ("key-2", stringify (buildResp laterEnv (.str (utf16 "o-1")) (.num tenThousand) (.str (utf16 "card"))
          (chargeStatus tenThousand)))] ∧
    (buildRow sampleEnv (.str (utf16 "o-1")) (.num tenThousand) (.str (utf16 "card"))
      (chargeStatus tenThousand)).payment_id = sampleEnv.now ∧
    (buildRow laterEnv (.str (utf16 "o-1")) (.num tenThousand) (.str (utf16 "card"))
      (chargeStatus tenThousand)).payment_id = laterEnv.now ∧
    ((buildRow sampleEnv (.str (utf16 "o-1")) (.num tenThousand) (.str (utf16 "card"))
        (chargeStatus tenThousand)).payment_id ≠
      (buildRow laterEnv (.str (utf16 "o-1")) (.num tenThousand) (.str (utf16 "card"))
        (chargeStatus tenThousand)).payment_id ↔ sampleEnv.now ≠ laterEnv.now) :=
  two_keys_two_records sampleEnv laterEnv (mkRequest "key-1" (orderBody (.num tenThousand)))
    (mkRequest "key-2" (orderBody (.num tenThousand))) emptyStore "key-1" "key-2"
    (.str (utf16 "o-1")) (.num tenThousand) (.str (utf16 "card")) tenThousand tenThousand rfl rfl
    (by decide) (by decide) (by decide) rfl rfl rfl rfl rfl rfl sampleEnv_quiet laterEnv_quiet

/-! ### C10: the ledger only grows -/

theorem ledger_grows (env : Env) (req : Request) (st : Store) :
    (∃ extra, (charge env req st).store.idempotency_keys = st.idempotency_keys ++ extra ∧
      ∀ e ∈ extra, req.idempotencyKey = some e.1 ∧ selectKey st e.1 = []) ∧
    (∀ c ∈ (charge env req st).calls, ∀ k s, c.query = .insertKey k s →
      req.idempotencyKey = some k ∧ selectKey st k = []) := by
  rcases charge_cases env req st with ⟨_, hc⟩ | ⟨key, hk, _, h⟩
  · rw [hc]
    exact ⟨⟨[], by simp, by simp⟩, by simp⟩
  · rcases h with ⟨_, hc⟩ | ⟨_, row, rest, _, hc⟩ | ⟨_, _, hc⟩ | ⟨_, hsel, o, a, m, x, _, _, hc⟩
    · rw [hc]
      exact ⟨⟨[], by simp, by simp⟩, by simp⟩
    · rw [hc]
      exact ⟨⟨[], by simp, by simp⟩, by simp⟩
    · rw [hc]
      exact ⟨⟨[], by simp, by simp⟩, by simp⟩
    · obtain ⟨extra, hex, hkeys, _⟩ := afterRival_keys env st key
      have hmem : ∀ e ∈ extra, req.idempotencyKey = some e.1 ∧ selectKey st e.1 = [] := by
        intro e he
        rw [hkeys e he]
        exact ⟨hk, hsel⟩
      rcases persist_cases env (afterRival env st key) key ⟨.selectKey key, true⟩
          (buildRow env o a m (chargeStatus x)) (buildResp env o a m (chargeStatus x)) with
        ⟨_, hp⟩ | ⟨_, _, hp⟩ | ⟨_, _, _, hp⟩
      · rw [hc, hp]
        refine ⟨⟨extra, hex, hmem⟩, ?_⟩
        intro c hcm k s hq
        simp only [List.mem_cons, List.mem_singleton, List.not_mem_nil, or_false] at hcm
        rcases hcm with rfl | rfl <;> cases hq
      · rw [hc, hp]
        refine ⟨⟨extra, hex, hmem⟩, ?_⟩
        intro c hcm k s hq
        simp only [List.mem_cons, List.mem_singleton, List.not_mem_nil, or_false] at hcm
        rcases hcm with rfl | rfl | rfl <;> cases hq
        exact ⟨hk, hsel⟩
      · rw [hc, hp]
        refine ⟨⟨extra ++ [(key, stringify (buildResp env o a m (chargeStatus x)))], ?_, ?_⟩, ?_⟩
        · simp [Store.addKey, Store.addPayment, hex]
        · intro e he
          rcases List.mem_append.mp he with he | he
          · exact hmem e he
          · rw [List.mem_singleton.mp he]; exact ⟨hk, hsel⟩
        · intro c hcm k s hq
          simp only [List.mem_cons, List.mem_singleton, List.not_mem_nil, or_false] at hcm
          rcases hcm with rfl | rfl | rfl <;> cases hq
          exact ⟨hk, hsel⟩

theorem hit_writes_nothing (env : Env) (req : Request) (st : Store) (key : String)
    (row : String × Text) (rest : List (String × Text))
    (hk : req.idempotencyKey = some key) (hne : key ≠ "") (hs : env.selectFails = false)
    (hsel : selectKey st key = row :: rest) :
    (charge env req st).store = st ∧
      ∀ c ∈ (charge env req st).calls, c.query.isInsert = false := by
  rw [charge_hit env req st key row rest hk hne hs hsel]
  refine ⟨rfl, ?_⟩
  intro c hc
  simp only [List.mem_singleton] at hc
  subst hc
  rfl

/-- C10 (ledger immutability): whatever the request and whatever the store calls do, the
ledger after the request is the ledger before it followed by new rows, so every row
present before is present unchanged; each new row, and each ledger `INSERT` the handler
issues, is for the key of the request, which the `SELECT` found absent; and a request
that hits the ledger leaves both tables as they were and issues no `INSERT`. -/
theorem ledger_immutable (env : Env) (req : Request) (st : Store) :
    (∃ extra, (charge env req st).store.idempotency_keys = st.idempotency_keys ++ extra ∧
      ∀ e ∈ extra, req.idempotencyKey = some e.1 ∧ selectKey st e.1 = []) ∧
    (∀ c ∈ (charge env req st).calls, ∀ k s, c.query = .insertKey k s →
      req.idempotencyKey = some k ∧ selectKey st k = []) ∧
    (∀ (key : String) (row : String × Text) (rest : List (String × Text)),
      req.idempotencyKey = some key → key ≠ "" → env.selectFails = false →
      selectKey st key = row :: rest →
      (charge env req st).store = st ∧
        ∀ c ∈ (charge env req st).calls, c.query.isInsert = false) :=
  ⟨(ledger_grows env req st).1, (ledger_grows env req st).2,
    fun key row rest hk hne hs hsel => hit_writes_nothing env req st key row rest hk hne hs hsel⟩

/-- Witness for C10: a request that hits the ledger of `replayStore`. -/
theorem ledger_immutable_witness :
    (charge sampleEnv (mkRequest "key-1" (orderBody (.num zero))) replayStore).store
      = replayStore ∧
    ∀ c ∈ (charge sampleEnv (mkRequest "key-1" (orderBody (.num zero))) replayStore).calls,
      c.query.isInsert = false :=
  (ledger_immutable sampleEnv (mkRequest "key-1" (orderBody (.num zero))) replayStore).2.2
    "key-1" ("key-1", rivalSnapshot) [] rfl (by decide) rfl rfl

end PaymentService
